import Mathlib

/-!
Shallow embedding of the change-detection core of the halo-discord watcher
(`HaloWatcher` class): the set-difference algorithm `#locateDifferenceInArrays`,
the three watcher tick bodies (`#watchForAnnouncements`, `#watchForGrades`,
`#watchForInboxMessages`), the recency/visibility filters, and the snapshot
store they drive.

Remote fetches (`Halo.getClassAnnouncements`, `Halo.getAllGrades`,
`Halo.getGradeFeedback` + `Halo.getUserId`, `Halo.getUserInbox`,
`Halo.getPostsForInboxForum`), the credential resolver
(`Firebase.getUserCookie`) and the directory (`Firebase.getActiveClasses`,
`Firebase.getActiveUsersInClass`, `Firebase.getAllActiveUsers`) are external
collaborators; they are modelled as oracle functions supplied in an
environment record.  A fetch either succeeds with a value, fails with a 401
(the thrown `{ code: 401 }` object), or fails with any other error.
Timestamps are milliseconds-since-epoch integers; a date string that does not
parse (`new Date(x).getTime()` yielding `NaN`, every comparison false) is
modelled as `none`.  Cookies, feedback payloads and ids are opaque naturals.
-/

/-- Outcome of one remote fetch: success, a thrown `{code: 401}`, or any
other thrown error. -/
inductive FetchResult (α : Type) where
  | ok (val : α)
  | err401
  | errOther
deriving DecidableEq, Repr

/-- Modelled from the spec: the SnapshotStore backing maps (the repository's
`caches` module is not under `src/`).  Per §4.1 it is a per-key map with
`get` returning `null` when never populated and `set` replacing
unconditionally; we realise it as an association list. -/
def SMap (κ α : Type) : Type := List (κ × α)

instance {κ α : Type} [DecidableEq κ] [DecidableEq α] : DecidableEq (SMap κ α) :=
  inferInstanceAs (DecidableEq (List (κ × α)))

/-- Modelled from the spec: `get(key)` returns the stored value, or `none`
when the key was never populated. -/
def SMap.get {κ α : Type} [DecidableEq κ] (m : SMap κ α) (k : κ) : Option α :=
  (List.find? (fun p => p.1 = k) m).map Prod.snd

/-- Modelled from the spec: `set(key, v)` replaces the in-memory value
unconditionally. -/
def SMap.set {κ α : Type} [DecidableEq κ] (m : SMap κ α) (k : κ) (v : α) : SMap κ α :=
  (k, v) :: List.filter (fun p => ¬ p.1 = k) m

theorem SMap.get_set_self {κ α : Type} [DecidableEq κ] (m : SMap κ α) (k : κ) (v : α) :
    SMap.get (SMap.set m k v) k = some v := by
  simp [SMap.get, SMap.set]

theorem find?_filter_ne_key {κ α : Type} [DecidableEq κ] (m : List (κ × α)) (k k' : κ)
    (h : k' ≠ k) :
    List.find? (fun p => decide (p.1 = k')) (List.filter (fun p => decide ¬ p.1 = k) m) =
      List.find? (fun p => decide (p.1 = k')) m := by
  induction m with
  | nil => rfl
  | cons p m ih =>
    by_cases hp : p.1 = k
    · rw [List.filter_cons_of_neg (by simp [hp]), ih,
        List.find?_cons_of_neg _ (by simpa using fun e => h (e.symm.trans hp))]
    · rw [List.filter_cons_of_pos (by simpa using hp)]
      by_cases hp' : p.1 = k'
      · rw [List.find?_cons_of_pos _ (by simpa using hp'),
          List.find?_cons_of_pos _ (by simpa using hp')]
      · rw [List.find?_cons_of_neg _ (by simpa using hp'),
          List.find?_cons_of_neg _ (by simpa using hp'), ih]

theorem SMap.get_set_ne {κ α : Type} [DecidableEq κ] (m : SMap κ α) (k k' : κ) (v : α)
    (h : k' ≠ k) : SMap.get (SMap.set m k v) k' = SMap.get m k' := by
  simp only [SMap.get, SMap.set]
  rw [List.find?_cons_of_neg _ (by simpa using Ne.symm h), find?_filter_ne_key m k k' h]

/-- `#locateDifferenceInArrays(a1, a2)`: returns the objects present in `a1`
whose id is not among the ids of `a2`.  The source first builds the list of
ids of `a1` that are not in the id set of `a2`, then for each such id pushes
the first object of `a1` bearing it (`a1.find`), skipping ids with no
matching object.  Generic over the item type via its `id` projection. -/
def locateDifferenceInArrays {α : Type} (getId : α → Nat) (a1 a2 : List α) : List α :=
  let id_array := List.filter (fun n => ¬ (List.map getId a2).contains n) (List.map getId a1)
  id_array.filterMap (fun i => a1.find? (fun o => getId o = i))

theorem mem_a1_of_mem_locateDifference {α : Type} (getId : α → Nat) (a1 a2 : List α)
    (y : α) (hy : y ∈ locateDifferenceInArrays getId a1 a2) : y ∈ a1 := by
  simp only [locateDifferenceInArrays, List.mem_filterMap] at hy
  obtain ⟨i, _, hfind⟩ := hy
  exact List.mem_of_find?_eq_some hfind

theorem id_not_in_old_of_mem_locateDifference {α : Type} (getId : α → Nat) (a1 a2 : List α)
    (y : α) (hy : y ∈ locateDifferenceInArrays getId a1 a2) :
    ¬ (List.map getId a2).contains (getId y) := by
  simp only [locateDifferenceInArrays, List.mem_filterMap, List.mem_filter] at hy
  obtain ⟨i, ⟨_, hi⟩, hfind⟩ := hy
  have := List.find?_some hfind
  simp only [decide_eq_true_eq] at this hi
  rw [this]
  simpa using hi

theorem find?_cons_ne_head {α : Type} (getId : α → Nat) (x : α) (xs : List α) (l : List Nat)
    (hl : ∀ n ∈ l, n ≠ getId x) :
    l.filterMap (fun i => (x :: xs).find? (fun o => getId o = i)) =
      l.filterMap (fun i => xs.find? (fun o => getId o = i)) := by
  induction l with
  | nil => rfl
  | cons n l ih =>
    have hn : n ≠ getId x := hl n (List.mem_cons_self n l)
    rw [List.filterMap_cons, List.filterMap_cons,
      List.find?_cons_of_neg _ (by simpa using fun e => hn e.symm), ih]
    intro m hm
    exact hl m (List.mem_cons_of_mem n hm)

theorem locateDifference_eq_filter_of_nodup {α : Type} (getId : α → Nat) (a1 a2 : List α)
    (h : (List.map getId a1).Nodup) :
    locateDifferenceInArrays getId a1 a2 =
      a1.filter (fun o => ¬ (List.map getId a2).contains (getId o)) := by
  induction a1 with
  | nil => rfl
  | cons x xs ih =>
    simp only [List.map_cons, List.nodup_cons] at h
    obtain ⟨hx, hxs⟩ := h
    have hgood : ∀ n ∈ List.filter (fun n => ¬ (List.map getId a2).contains n)
        (List.map getId xs), n ≠ getId x := by
      intro n hn e
      exact hx (e ▸ (List.mem_filter.mp hn).1)
    have ihx := ih hxs
    simp only [locateDifferenceInArrays] at ihx ⊢
    simp only [List.map_cons]
    by_cases hmem : (List.map getId a2).contains (getId x)
    · rw [List.filter_cons_of_neg (by simpa using hmem),
        List.filter_cons_of_neg (by simpa using hmem),
        find?_cons_ne_head getId x xs _ hgood, ihx]
    · rw [List.filter_cons_of_pos (by simpa using hmem),
        List.filter_cons_of_pos (by simpa using hmem),
        List.filterMap_cons, List.find?_cons_of_pos _ (by simp),
        find?_cons_ne_head getId x xs _ hgood, ihx]

/-- An announcement object as the announcements watcher sees it
(`Halo.getClassAnnouncements` result): a stable `id`, the parsed
`publishDate` and `startDate` timestamps (`none` models an absent or
unparseable date, whose `new Date(x).getTime()` is `NaN` and compares
false), and an opaque `payload` standing for the remaining fields
(content, title, injected metadata, ...). -/
structure Ann where
  id : Nat
  publishTime : Option Int
  startTime : Option Int
  payload : Nat
deriving DecidableEq, Repr

/-- A grade object from `Halo.getAllGrades`: stable `id`, the `status`
string (`"PUBLISHED"` or not), the `userLastSeenDate` (`none` models
`null`), and the `assessment.id` used for the feedback fetch. -/
structure Grade where
  id : Nat
  status : String
  userLastSeenDate : Option Int
  assessmentId : Nat
deriving DecidableEq, Repr

/-- An inbox post from `Halo.getPostsForInboxForum`: stable `id`, the
`isRead` flag, and an opaque `payload` for the remaining fields. -/
structure Post where
  id : Nat
  isRead : Bool
  payload : Nat
deriving DecidableEq, Repr

/-- A generic item used to state properties of `#locateDifferenceInArrays`
alone: a stable `id` plus an opaque `tag` distinguishing objects that share
an id. -/
structure Item where
  id : Nat
  tag : Nat
deriving DecidableEq, Repr

/-- Collaborator oracles for one `#watchForAnnouncements` tick: the active
users listed for a course (`Firebase.getActiveUsersInClass`), the resolved
cookie of a user (`Firebase.getUserCookie`; `none` models a falsy cookie),
the remote announcements fetch for a course with a given cookie
(`Halo.getClassAnnouncements`), and the wall clock (`new Date().getTime()`)
at tick time. -/
structure AnnEnv where
  activeUsers : Nat → List Nat
  cookie : Nat → Option Nat
  fetchAnn : Nat → Nat → FetchResult (List Ann)
  now : Int

/-- State threaded through one `#watchForAnnouncements` tick: the
`CLASS_ANNOUNCEMENTS` in-memory cache keyed by class id (values are
`Option (List Ann)` because the source stores the raw `new_announcements`,
which is `null` when a first-ever fetch fails), the durable cache-file
mirror (`writeCacheFile`; the stored value is the written `data`, a missing
file reading back as `null`), the `announcement` events emitted so far
(tagged with the class id the payload's injected `courseClassId` carries),
and the `handle401` credential-invalidation reports issued so far. -/
structure AnnState where
  mem : SMap Nat (Option (List Ann))
  disk : SMap Nat (Option (List Ann))
  events : List (Nat × Ann)
  reports : List Nat

/-- Reading a snapshot as the watcher does: `get(class_id) || null` maps
both a never-populated key and a stored `null` to `null`. The same reading
applies to the durable mirror, where a missing file loads as `null`. -/
def annGet (m : SMap Nat (Option (List Ann))) (k : Nat) : Option (List Ann) :=
  (SMap.get m k).getD none

/-- `getClassAnnouncementsSafe`: walk the course's active users; skip a
user with no resolvable cookie; return the first successful fetch result;
on a 401 report the user via `handle401` and try the next; on any other
error log and try the next; yield `null` when no user produced a result.
Returns the fetch outcome together with the `handle401` reports issued. -/
def getClassAnnouncementsSafe (env : AnnEnv) (class_id : Nat) :
    List Nat → Option (List Ann) × List Nat
  | [] => (none, [])
  | uid :: rest =>
    match env.cookie uid with
    | none => getClassAnnouncementsSafe env class_id rest
    | some ck =>
      match env.fetchAnn class_id ck with
      | .ok l => (some l, [])
      | .err401 =>
        let r := getClassAnnouncementsSafe env class_id rest
        (r.1, uid :: r.2)
      | .errOther => getClassAnnouncementsSafe env class_id rest

/-- `isRecentAnnouncement`: the announcement passes when its parsed
`publishDate` or its parsed `startDate` is strictly later than 48 hours
before the current wall clock.  An unparseable date (`NaN`) compares
false. -/
def isRecentAnnouncement (now : Int) (announcement : Ann) : Bool :=
  let threshold := now - 1000 * 60 * 60 * 48
  (match announcement.publishTime with
   | some publishTime => decide (publishTime > threshold)
   | none => false)
  ||
  (match announcement.startTime with
   | some startTime => decide (startTime > threshold)
   | none => false)

/-- The body of the per-course loop of `#watchForAnnouncements`: skip the
course when it has no active users; otherwise read the old snapshot
(`get(class_id) || null`), run `getClassAnnouncementsSafe`, fall back to
the old snapshot when it yielded `null` (`?? old_announcements`), `set`
the new value, persist-and-stop when the old snapshot was `null`
(first install), stop when the lengths match, else persist and emit an
`announcement` event for every diffed item passing
`isRecentAnnouncement`. -/
def processAnnCourse (env : AnnEnv) (st : AnnState) (class_id : Nat) : AnnState :=
  let active_users := env.activeUsers class_id
  if active_users = [] then st
  else
    let old_announcements := annGet st.mem class_id
    let fr := getClassAnnouncementsSafe env class_id active_users
    let st1 := { st with reports := st.reports ++ fr.2 }
    match old_announcements with
    | none =>
      let st2 := { st1 with mem := SMap.set st1.mem class_id fr.1 }
      { st2 with disk := SMap.set st2.disk class_id fr.1 }
    | some old_list =>
      let new_announcements := match fr.1 with
        | some l => l
        | none => old_list
      let st2 := { st1 with mem := SMap.set st1.mem class_id (some new_announcements) }
      if new_announcements.length = old_list.length then st2
      else
        let st3 := { st2 with disk := SMap.set st2.disk class_id (some new_announcements) }
        let emitted := (locateDifferenceInArrays Ann.id new_announcements old_list).filter
          (isRecentAnnouncement env.now)
        { st3 with events := st3.events ++ emitted.map (fun a => (class_id, a)) }

/-- One `#watchForAnnouncements` tick: fold the per-course body over the
active courses returned by `Firebase.getActiveClasses`. -/
def watchForAnnouncements (env : AnnEnv) (courses : List Nat) (st : AnnState) : AnnState :=
  courses.foldl (processAnnCourse env) st

/-- Collaborator oracles for one `#watchForGrades` tick: active users per
course, resolved cookies, the grades fetch (`Halo.getAllGrades`, keyed by
the course and the cookie; the `finalGrade` part of its result is opaque
metadata and is not modelled), and the secondary enrichment fetch
(`Halo.getUserId` followed by `Halo.getGradeFeedback`, collapsed into one
oracle keyed by the cookie and the grade's `assessment.id`, returning the
opaque feedback payload that becomes the event body). -/
structure GradeEnv where
  activeUsers : Nat → List Nat
  cookie : Nat → Option Nat
  fetchGrades : Nat → Nat → FetchResult (List Grade)
  enrich : Nat → Nat → FetchResult Nat

/-- State threaded through one `#watchForGrades` tick: the `USER_GRADES`
in-memory cache and its durable mirror keyed by `(course_id, uid)`, the
`grade` events emitted so far (the key, the diffed grade the feedback was
fetched for, and the opaque feedback payload the source actually emits),
and the `handle401` reports issued so far. -/
structure GradeState where
  mem : SMap (Nat × Nat) (List Grade)
  disk : SMap (Nat × Nat) (List Grade)
  events : List ((Nat × Nat) × Grade × Nat)
  reports : List Nat

/-- The emission loop at the end of a grades target: walk the diffed
grades in order; skip a grade the user has already seen
(`!!grade.userLastSeenDate`); otherwise perform the enrichment fetch and
emit its result.  A thrown enrichment error leaves the loop and propagates
to the per-target catch; the second component records it (`some true` for
a 401, `some false` otherwise), and the first component holds the events
emitted before the throw. -/
def emitGrades (env : GradeEnv) (ck : Nat) (key : Nat × Nat) :
    List Grade → List ((Nat × Nat) × Grade × Nat) × Option Bool
  | [] => ([], none)
  | grade :: rest =>
    if grade.userLastSeenDate.isSome then emitGrades env ck key rest
    else
      match env.enrich ck grade.assessmentId with
      | .ok feedback =>
        let r := emitGrades env ck key rest
        ((key, grade, feedback) :: r.1, r.2)
      | .err401 => ([], some true)
      | .errOther => ([], some false)

/-- The body of the per-(course, user) loop of `#watchForGrades`: skip the
user when no cookie resolves; fetch all grades (a thrown error reaches the
per-target catch: `handle401` on a 401, a log otherwise); keep only
`PUBLISHED` grades; `set` the new snapshot; persist-and-stop when the old
snapshot was `null`; stop when the lengths match; else persist, diff, and
run the emission loop, whose thrown enrichment error reaches the same
per-target catch. -/
def processGradeTarget (env : GradeEnv) (st : GradeState) (t : Nat × Nat) : GradeState :=
  match env.cookie t.2 with
  | none => st
  | some ck =>
    match env.fetchGrades t.1 ck with
    | .err401 => { st with reports := st.reports ++ [t.2] }
    | .errOther => st
    | .ok grades =>
      let new_grades := grades.filter (fun grade => grade.status = "PUBLISHED")
      let old_grades := SMap.get st.mem t
      let st1 := { st with mem := SMap.set st.mem t new_grades }
      match old_grades with
      | none => { st1 with disk := SMap.set st1.disk t new_grades }
      | some old_list =>
        if new_grades.length = old_list.length then st1
        else
          let st2 := { st1 with disk := SMap.set st1.disk t new_grades }
          let r := emitGrades env ck t (locateDifferenceInArrays Grade.id new_grades old_list)
          let st3 := { st2 with events := st2.events ++ r.1 }
          match r.2 with
          | none => st3
          | some true => { st3 with reports := st3.reports ++ [t.2] }
          | some false => st3

/-- One `#watchForGrades` tick: the nested course/user loops, flattened to
a fold over the (course, user) targets in iteration order — equivalent to
the nested `foldl` because the state threads left-to-right through both
loops. -/
def watchForGrades (env : GradeEnv) (courses : List Nat) (st : GradeState) : GradeState :=
  (courses.flatMap (fun c => (env.activeUsers c).map (fun u => (c, u)))).foldl
    (processGradeTarget env) st

/-- Collaborator oracles for one `#watchForInboxMessages` tick: resolved
cookies, the inbox forum listing (`Halo.getUserInbox`, keyed by cookie,
returning `(forumId, unreadCount)` pairs), and the per-forum post fetch
(`Halo.getPostsForInboxForum`, keyed by cookie and forum id). -/
structure InboxEnv where
  cookie : Nat → Option Nat
  fetchInbox : Nat → FetchResult (List (Nat × Nat))
  fetchPosts : Nat → Nat → FetchResult (List Post)

/-- State threaded through one `#watchForInboxMessages` tick: the
`USER_INBOX` in-memory cache and its durable mirror keyed by
`(uid, forumId)`, the `inbox_message` events emitted so far (key plus
post; the source payload also carries `metadata.uid`, recovered from the
key), the `handle401` reports, and the trace of per-forum post fetch calls
actually placed (the optimization the source comments as minimizing Halo
API calls). -/
structure InboxState where
  mem : SMap (Nat × Nat) (List Post)
  disk : SMap (Nat × Nat) (List Post)
  events : List ((Nat × Nat) × Post)
  reports : List Nat
  postFetches : List (Nat × Nat)

/-- `getUnreadInboxMessagesCountFromCache`: the number of cached posts for
`(uid, forumId)` whose `isRead` flag is false, an absent cache entry
counting as `[]`. -/
def getUnreadMessagesCount (st : InboxState) (uid forumId : Nat) : Nat :=
  (((SMap.get st.mem (uid, forumId)).getD []).filter (fun p => !p.isRead)).length

/-- Either kind of error thrown while processing one forum, as seen by the
per-user catch. -/
inductive ErrKind where
  | e401
  | eOther
deriving DecidableEq, Repr

/-- The body of the per-forum loop of `#watchForInboxMessages`: when an
old snapshot exists and the forum's `unreadCount` is zero or equals the
cached unread count, skip the post fetch entirely; otherwise fetch the
posts (recorded in the call trace; a thrown error propagates to the
per-user catch), `set` the new snapshot, persist-and-stop when the old
snapshot was `null`, stop when the lengths match, else persist, diff, and
emit an `inbox_message` event for every diffed post that is unread. -/
def processForum (env : InboxEnv) (uid ck : Nat) (st : InboxState) (forum : Nat × Nat) :
    InboxState × Option ErrKind :=
  let forumId := forum.1
  let unreadCount := forum.2
  let old_inbox_posts := SMap.get st.mem (uid, forumId)
  if old_inbox_posts.isSome &&
      (unreadCount == 0 || unreadCount == getUnreadMessagesCount st uid forumId) then
    (st, none)
  else
    let st0 := { st with postFetches := st.postFetches ++ [(uid, forumId)] }
    match env.fetchPosts ck forumId with
    | .err401 => (st0, some .e401)
    | .errOther => (st0, some .eOther)
    | .ok new_inbox_posts =>
      let st1 := { st0 with mem := SMap.set st0.mem (uid, forumId) new_inbox_posts }
      match old_inbox_posts with
      | none => ({ st1 with disk := SMap.set st1.disk (uid, forumId) new_inbox_posts }, none)
      | some old_list =>
        if new_inbox_posts.length = old_list.length then (st1, none)
        else
          let st2 := { st1 with disk := SMap.set st1.disk (uid, forumId) new_inbox_posts }
          let emitted := (locateDifferenceInArrays Post.id new_inbox_posts old_list).filter
            (fun p => !p.isRead)
          ({ st2 with events := st2.events ++ emitted.map (fun p => ((uid, forumId), p)) },
            none)

/-- The forum loop of one user: process forums left to right, stopping at
the first thrown error, which the per-user catch then classifies. -/
def processForumsLoop (env : InboxEnv) (uid ck : Nat) (st : InboxState) :
    List (Nat × Nat) → InboxState × Option ErrKind
  | [] => (st, none)
  | f :: rest =>
    match processForum env uid ck st f with
    | (st', none) => processForumsLoop env uid ck st' rest
    | (st', some e) => (st', some e)

/-- The body of the per-user loop of `#watchForInboxMessages`: skip the
user when no cookie resolves; list the inbox forums (a thrown error
reaches the per-user catch); run the forum loop; a 401 escaping the loop
or the listing produces a `handle401` report, any other escaping error is
logged. -/
def processInboxUser (env : InboxEnv) (st : InboxState) (uid : Nat) : InboxState :=
  match env.cookie uid with
  | none => st
  | some ck =>
    match env.fetchInbox ck with
    | .err401 => { st with reports := st.reports ++ [uid] }
    | .errOther => st
    | .ok forums =>
      let r := processForumsLoop env uid ck st forums
      match r.2 with
      | none => r.1
      | some .e401 => { r.1 with reports := r.1.reports ++ [uid] }
      | some .eOther => r.1

/-- One `#watchForInboxMessages` tick: fold the per-user body over the
active users returned by `Firebase.getAllActiveUsers`. -/
def watchForInboxMessages (env : InboxEnv) (users : List Nat) (st : InboxState) : InboxState :=
  users.foldl (processInboxUser env) st

/-- C2: refuted as stated.  When `newItems` contains two distinct objects
with the same id, the source pushes the first object bearing the id once
per occurrence of the id: on `A = [{id 1, tag 0}, {id 1, tag 1}]` and
`B = []`, the second object has an id absent from `B` yet appears zero
times in the diff, while the first appears twice. -/
theorem C2_counterexample :
    ((List.map Item.id ([] : List Item)).contains (Item.mk 1 1).id = false) ∧
    (Item.mk 1 1) ∈ [Item.mk 1 0, Item.mk 1 1] ∧
    locateDifferenceInArrays Item.id [Item.mk 1 0, Item.mk 1 1] [] =
      [Item.mk 1 0, Item.mk 1 0] ∧
    List.count (Item.mk 1 1) (locateDifferenceInArrays Item.id [Item.mk 1 0, Item.mk 1 1] [])
      = 0 := by
  decide

/-- C2 (amended): when the items of `newItems` carry pairwise-distinct ids,
`#locateDifferenceInArrays(A, B)` is exactly the sublist of `A` of items
whose id is absent from the id set of `B` (hence in `A`'s order); every
item of the result has an id not present in `B`; and every item of `A`
with an id absent from `B` appears in the result exactly once. -/
theorem C2_diff_characterization {α : Type} [DecidableEq α] (getId : α → Nat)
    (A B : List α) (h : (List.map getId A).Nodup) :
    locateDifferenceInArrays getId A B =
      A.filter (fun o => ¬ (List.map getId B).contains (getId o)) ∧
    (∀ y ∈ locateDifferenceInArrays getId A B, ¬ (List.map getId B).contains (getId y)) ∧
    (∀ x ∈ A, ¬ (List.map getId B).contains (getId x) →
      List.count x (locateDifferenceInArrays getId A B) = 1) := by
  refine ⟨locateDifference_eq_filter_of_nodup getId A B h, ?_, ?_⟩
  · intro y hy
    exact id_not_in_old_of_mem_locateDifference getId A B y hy
  · intro x hx hxid
    rw [locateDifference_eq_filter_of_nodup getId A B h,
      List.count_filter (by simpa using hxid)]
    exact List.count_eq_one_of_mem (List.Nodup.of_map getId h) hx

/-- Witness for C2 (amended) at a concrete input. -/
theorem C2_diff_characterization_witness :
    (List.map Item.id [Item.mk 1 0, Item.mk 2 5]).Nodup ∧
    (locateDifferenceInArrays Item.id [Item.mk 1 0, Item.mk 2 5] [Item.mk 2 7] =
      List.filter (fun o => ¬ (List.map Item.id [Item.mk 2 7]).contains (Item.id o))
        [Item.mk 1 0, Item.mk 2 5] ∧
    (∀ y ∈ locateDifferenceInArrays Item.id [Item.mk 1 0, Item.mk 2 5] [Item.mk 2 7],
      ¬ (List.map Item.id [Item.mk 2 7]).contains (Item.id y)) ∧
    (∀ x ∈ [Item.mk 1 0, Item.mk 2 5],
      ¬ (List.map Item.id [Item.mk 2 7]).contains (Item.id x) →
      List.count x (locateDifferenceInArrays Item.id [Item.mk 1 0, Item.mk 2 5] [Item.mk 2 7])
        = 1)) :=
  ⟨by decide, C2_diff_characterization Item.id [Item.mk 1 0, Item.mk 2 5] [Item.mk 2 7]
    (by decide)⟩

/-- The recency window exactly as claim C8 words it (spec-side comparison
definition, written from the claim's words rather than the source): a date
lies strictly within the last 48 hours of wall-clock time `now` when it
parses and its timestamp is strictly after `now` minus 48 hours and no
later than `now`; an unparseable date lies in no window. -/
def withinLast48Hours (now : Int) : Option Int → Bool
  | some t => decide (now - 1000 * 60 * 60 * 48 < t) && decide (t ≤ now)
  | none => false

/-- C8: refuted as stated.  `isRecentAnnouncement` has no upper bound: an
announcement whose `publishDate` parses to one hour in the future of the
evaluation clock (`now = 0`, `publishTime = 3600000`) passes the source
filter, yet neither of its dates is strictly within the last 48 hours of
wall-clock time. -/
theorem C8_counterexample :
    isRecentAnnouncement 0 (Ann.mk 1 (some 3600000) none 0) = true ∧
    withinLast48Hours 0 (Ann.mk 1 (some 3600000) none 0).publishTime = false ∧
    withinLast48Hours 0 (Ann.mk 1 (some 3600000) none 0).startTime = false := by
  decide

/-- C8 (amended): the announcement recency filter passes a diffed
announcement if and only if its `publishDate` or its `startDate` parses to
a time strictly later than 48 hours before the wall clock at evaluation
(with no upper bound, so future-dated announcements also pass); in
particular an announcement with both dates 49 hours in the past is
rejected, and one with `publishDate` 1 hour in the past passes. -/
theorem C8_recency_characterization :
    (∀ (now : Int) (a : Ann), isRecentAnnouncement now a = true ↔
      ((∃ t, a.publishTime = some t ∧ now - 1000 * 60 * 60 * 48 < t) ∨
       (∃ t, a.startTime = some t ∧ now - 1000 * 60 * 60 * 48 < t))) ∧
    (∀ (now : Int) (i p : Nat),
      isRecentAnnouncement now
        (Ann.mk i (some (now - 49 * 3600000)) (some (now - 49 * 3600000)) p) = false) ∧
    (∀ (now : Int) (i p : Nat) (s : Option Int),
      isRecentAnnouncement now (Ann.mk i (some (now - 3600000)) s p) = true) := by
  refine ⟨?_, ?_, ?_⟩
  · intro now a
    rcases a with ⟨i, pt, st, pl⟩
    cases pt <;> cases st <;> simp [isRecentAnnouncement] <;> omega
  · intro now i p
    simp only [isRecentAnnouncement, Bool.or_eq_false_iff, decide_eq_false_iff_not, not_lt]
    omega
  · intro now i p s
    cases s <;> simp [isRecentAnnouncement] <;> omega

/-- C10: an announcement whose `publishDate` and `startDate` are both
missing or unparseable is never emitted by the announcements watcher:
every event newly emitted by the per-course body carries at least one
parseable date (both recency comparisons are false on `NaN`). -/
theorem C10_unparseable_dates_never_emitted (env : AnnEnv) (st : AnnState) (cid k : Nat)
    (a : Ann) (hmem : (k, a) ∈ (processAnnCourse env st cid).events)
    (hnew : (k, a) ∉ st.events) :
    a.publishTime.isSome ∨ a.startTime.isSome := by
  by_contra hcon
  push_neg at hcon
  obtain ⟨hp, hs⟩ := hcon
  simp only [ne_eq, Bool.not_eq_true, Option.not_isSome, Option.isNone_iff_eq_none] at hp hs
  have hrec : isRecentAnnouncement env.now a = false := by
    simp [isRecentAnnouncement, hp, hs]
  simp only [processAnnCourse] at hmem
  split at hmem
  · exact hnew hmem
  · split at hmem
    · exact hnew hmem
    · split at hmem
      · exact hnew hmem
      · simp only [List.mem_append, List.mem_map, List.mem_filter] at hmem
        rcases hmem with hmem | ⟨x, ⟨_, hx⟩, he⟩
        · exact hnew hmem
        · cases he
          rw [hrec] at hx
          exact Bool.noConfusion hx

/-- Concrete announcements environment for the C10 witness: one course with
one user whose fetch returns the cached announcement plus one new recent
one. -/
def envC10 : AnnEnv :=
  { activeUsers := fun _ => [10]
    cookie := fun _ => some 7
    fetchAnn := fun _ _ => .ok [Ann.mk 1 (some 0) none 0, Ann.mk 2 (some 100) none 0]
    now := 50 }

/-- Concrete announcements state for the C10 witness: course 1 already has
a one-element snapshot. -/
def stC10 : AnnState :=
  { mem := [(1, some [Ann.mk 1 (some 0) none 0])]
    disk := [(1, some [Ann.mk 1 (some 0) none 0])]
    events := []
    reports := [] }

/-- Witness for C10 at a concrete input: the per-course body emits the
newly diffed announcement, and it indeed carries a parseable date. -/
theorem C10_unparseable_dates_never_emitted_witness :
    ((1, Ann.mk 2 (some 100) none 0) ∈ (processAnnCourse envC10 stC10 1).events) ∧
    ((1, Ann.mk 2 (some 100) none 0) ∉ stC10.events) ∧
    ((Ann.mk 2 (some 100) none 0).publishTime.isSome ∨
      (Ann.mk 2 (some 100) none 0).startTime.isSome) :=
  ⟨by decide, by decide,
    C10_unparseable_dates_never_emitted envC10 stC10 1 1 (Ann.mk 2 (some 100) none 0)
      (by decide) (by decide)⟩

/-- The per-forum post fetch of `#watchForInboxMessages` is placed (and
recorded in the call trace) exactly when the optimization gate does not
fire: the gate fires when an old snapshot exists and the forum's
`unreadCount` is zero or equals the cached unread count. -/
theorem processForum_postFetches (env : InboxEnv) (uid ck : Nat) (st : InboxState)
    (f : Nat × Nat) :
    (processForum env uid ck st f).1.postFetches =
      (if (SMap.get st.mem (uid, f.1)).isSome &&
          (f.2 == 0 || f.2 == getUnreadMessagesCount st uid f.1)
        then st.postFetches
        else st.postFetches ++ [(uid, f.1)]) := by
  unfold processForum
  by_cases hgate : (SMap.get st.mem (uid, f.1)).isSome &&
      (f.2 == 0 || f.2 == getUnreadMessagesCount st uid f.1)
  · simp [hgate]
  · simp only [hgate, if_false, Bool.false_eq_true]
    cases hfp : env.fetchPosts ck f.1 with
    | ok posts =>
      simp only []
      cases hold : SMap.get st.mem (uid, f.1) with
      | none => simp
      | some old_list =>
        by_cases hlen : posts.length = old_list.length
        · simp [hlen]
        · simp [hlen]
    | err401 => simp
    | errOther => simp

/-- C7: in the inbox watcher, with a non-null snapshot for `(uid, forum)`
the per-forum post fetch is skipped exactly when the forum's reported
`unreadCount` is zero or equals the number of cached posts whose read flag
is false; any other `unreadCount` places the fetch; with no snapshot the
fetch always runs. -/
theorem C7_inbox_fetch_gate (env : InboxEnv) (uid ck : Nat) (st : InboxState)
    (forumId unreadCount : Nat) :
    (SMap.get st.mem (uid, forumId) = none →
      (processForum env uid ck st (forumId, unreadCount)).1.postFetches =
        st.postFetches ++ [(uid, forumId)]) ∧
    ((SMap.get st.mem (uid, forumId)).isSome →
      ((unreadCount = 0 ∨ unreadCount = getUnreadMessagesCount st uid forumId) →
        (processForum env uid ck st (forumId, unreadCount)).1.postFetches =
          st.postFetches) ∧
      (¬ (unreadCount = 0 ∨ unreadCount = getUnreadMessagesCount st uid forumId) →
        (processForum env uid ck st (forumId, unreadCount)).1.postFetches =
          st.postFetches ++ [(uid, forumId)])) := by
  refine ⟨?_, ?_⟩
  · intro hnone
    rw [processForum_postFetches]
    simp [hnone]
  · intro hsome
    constructor
    · intro hskip
      rw [processForum_postFetches]
      rcases hskip with h0 | hc
      · simp [hsome, h0]
      · simp [hsome, hc]
    · intro htrig
      push_neg at htrig
      rw [processForum_postFetches]
      simp [hsome, htrig.1, htrig.2]

/-- Concrete inbox environment for the C7 witness. -/
def envC7 : InboxEnv :=
  { cookie := fun _ => some 7
    fetchInbox := fun _ => .ok []
    fetchPosts := fun _ _ => .ok [Post.mk 9 false 0] }

/-- Concrete inbox state for the C7 witness: forum 1 of user 10 has two
cached posts, one unread; forum 2 has no snapshot. -/
def stC7 : InboxState :=
  { mem := [((10, 1), [Post.mk 1 false 0, Post.mk 2 true 0])]
    disk := []
    events := []
    reports := []
    postFetches := [] }

/-- Witness for C7 at concrete inputs: no snapshot always fetches; with a
snapshot, `unreadCount = 1` (the cached unread count) skips, and
`unreadCount = 2` fetches. -/
theorem C7_inbox_fetch_gate_witness :
    (SMap.get stC7.mem (10, 2) = none ∧
      (processForum envC7 10 7 stC7 (2, 5)).1.postFetches =
        stC7.postFetches ++ [(10, 2)]) ∧
    ((SMap.get stC7.mem (10, 1)).isSome ∧
      ((1 = 0 ∨ 1 = getUnreadMessagesCount stC7 10 1) ∧
        (processForum envC7 10 7 stC7 (1, 1)).1.postFetches = stC7.postFetches) ∧
      (¬ (2 = 0 ∨ 2 = getUnreadMessagesCount stC7 10 1) ∧
        (processForum envC7 10 7 stC7 (1, 2)).1.postFetches =
          stC7.postFetches ++ [(10, 1)])) :=
  ⟨⟨by decide, (C7_inbox_fetch_gate envC7 10 7 stC7 2 5).1 (by decide)⟩,
    by decide,
    ⟨by decide, ((C7_inbox_fetch_gate envC7 10 7 stC7 1 1).2 (by decide)).1 (by decide)⟩,
    ⟨by decide, ((C7_inbox_fetch_gate envC7 10 7 stC7 1 2).2 (by decide)).2 (by decide)⟩⟩

/-- C5: for a target whose cached snapshot is null at the start of
processing, a successful fetch emits zero events and always persists the
fetched collection (for grades, the PUBLISHED-filtered collection the
watcher caches), in all three watchers. -/
theorem C5_first_fetch_persists_no_events :
    (∀ (env : AnnEnv) (st : AnnState) (cid : Nat) (l : List Ann),
      env.activeUsers cid ≠ [] →
      annGet st.mem cid = none →
      (getClassAnnouncementsSafe env cid (env.activeUsers cid)).1 = some l →
      (processAnnCourse env st cid).events = st.events ∧
      annGet (processAnnCourse env st cid).mem cid = some l ∧
      annGet (processAnnCourse env st cid).disk cid = some l) ∧
    (∀ (env : GradeEnv) (st : GradeState) (t : Nat × Nat) (ck : Nat) (grades : List Grade),
      env.cookie t.2 = some ck →
      env.fetchGrades t.1 ck = .ok grades →
      SMap.get st.mem t = none →
      (processGradeTarget env st t).events = st.events ∧
      SMap.get (processGradeTarget env st t).mem t =
        some (grades.filter (fun g => g.status = "PUBLISHED")) ∧
      SMap.get (processGradeTarget env st t).disk t =
        some (grades.filter (fun g => g.status = "PUBLISHED"))) ∧
    (∀ (env : InboxEnv) (uid ck : Nat) (st : InboxState) (forumId unreadCount : Nat)
        (posts : List Post),
      SMap.get st.mem (uid, forumId) = none →
      env.fetchPosts ck forumId = .ok posts →
      (processForum env uid ck st (forumId, unreadCount)).1.events = st.events ∧
      SMap.get (processForum env uid ck st (forumId, unreadCount)).1.mem (uid, forumId) =
        some posts ∧
      SMap.get (processForum env uid ck st (forumId, unreadCount)).1.disk (uid, forumId) =
        some posts ∧
      (processForum env uid ck st (forumId, unreadCount)).2 = none) := by
  refine ⟨?_, ?_, ?_⟩
  · intro env st cid l husers hold hfetch
    simp only [processAnnCourse]
    rw [if_neg husers]
    simp only [hold, hfetch]
    simp [annGet, SMap.get_set_self]
  · intro env st t ck grades hck hfetch hold
    simp only [processGradeTarget, hck, hfetch, hold]
    simp [SMap.get_set_self]
  · intro env uid ck st forumId unreadCount posts hold hfetch
    simp only [processForum, hold, hfetch]
    simp [SMap.get_set_self]

/-- Concrete announcements environment for the C5 witness: course 1, one
user, fetch succeeds with one announcement, nothing cached yet. -/
def envC5a : AnnEnv :=
  { activeUsers := fun _ => [10]
    cookie := fun _ => some 7
    fetchAnn := fun _ _ => .ok [Ann.mk 1 (some 0) none 0]
    now := 0 }

/-- Concrete grades environment for the C5 witness. -/
def envC5g : GradeEnv :=
  { activeUsers := fun _ => [10]
    cookie := fun _ => some 7
    fetchGrades := fun _ _ => .ok [Grade.mk 1 "PUBLISHED" none 100, Grade.mk 2 "DRAFT" none 200]
    enrich := fun _ _ => .ok 42 }

/-- Concrete inbox environment for the C5 witness. -/
def envC5i : InboxEnv :=
  { cookie := fun _ => some 7
    fetchInbox := fun _ => .ok [(1, 1)]
    fetchPosts := fun _ _ => .ok [Post.mk 9 false 0] }

/-- The empty announcements state. -/
def stEmptyA : AnnState := { mem := [], disk := [], events := [], reports := [] }

/-- The empty grades state. -/
def stEmptyG : GradeState := { mem := [], disk := [], events := [], reports := [] }

/-- The empty inbox state. -/
def stEmptyI : InboxState :=
  { mem := [], disk := [], events := [], reports := [], postFetches := [] }

/-- Witness for C5 at concrete inputs, one per watcher. -/
theorem C5_first_fetch_persists_no_events_witness :
    (envC5a.activeUsers 1 ≠ [] ∧ annGet stEmptyA.mem 1 = none ∧
      (getClassAnnouncementsSafe envC5a 1 (envC5a.activeUsers 1)).1 =
        some [Ann.mk 1 (some 0) none 0] ∧
      (processAnnCourse envC5a stEmptyA 1).events = stEmptyA.events ∧
      annGet (processAnnCourse envC5a stEmptyA 1).mem 1 = some [Ann.mk 1 (some 0) none 0] ∧
      annGet (processAnnCourse envC5a stEmptyA 1).disk 1 = some [Ann.mk 1 (some 0) none 0]) ∧
    ((processGradeTarget envC5g stEmptyG (1, 10)).events = stEmptyG.events ∧
      SMap.get (processGradeTarget envC5g stEmptyG (1, 10)).mem (1, 10) =
        some [Grade.mk 1 "PUBLISHED" none 100] ∧
      SMap.get (processGradeTarget envC5g stEmptyG (1, 10)).disk (1, 10) =
        some [Grade.mk 1 "PUBLISHED" none 100]) ∧
    ((processForum envC5i 10 7 stEmptyI (1, 1)).1.events = stEmptyI.events ∧
      SMap.get (processForum envC5i 10 7 stEmptyI (1, 1)).1.mem (10, 1) =
        some [Post.mk 9 false 0] ∧
      SMap.get (processForum envC5i 10 7 stEmptyI (1, 1)).1.disk (10, 1) =
        some [Post.mk 9 false 0] ∧
      (processForum envC5i 10 7 stEmptyI (1, 1)).2 = none) := by
  refine ⟨⟨by decide, by decide, by decide, ?_⟩, ?_, ?_⟩
  · exact C5_first_fetch_persists_no_events.1 envC5a stEmptyA 1 [Ann.mk 1 (some 0) none 0]
      (by decide) (by decide) (by decide)
  · have h := C5_first_fetch_persists_no_events.2.1 envC5g stEmptyG (1, 10) 7
      [Grade.mk 1 "PUBLISHED" none 100, Grade.mk 2 "DRAFT" none 200]
      (by decide) (by decide) (by decide)
    simpa using h
  · exact C5_first_fetch_persists_no_events.2.2 envC5i 10 7 stEmptyI 1 1
      [Post.mk 9 false 0] (by decide) (by decide)

/-- C6: for a target with a non-null cached snapshot, a successful fetch
whose collection has the same length as the cache emits zero events and
performs no durable persist, even when membership differs; the in-memory
snapshot is nonetheless replaced by the fetched collection.  Holds in all
three watchers (for inbox, for a forum whose optimization gate placed the
fetch). -/
theorem C6_same_length_no_events_no_persist :
    (∀ (env : AnnEnv) (st : AnnState) (cid : Nat) (old_list newl : List Ann),
      env.activeUsers cid ≠ [] →
      annGet st.mem cid = some old_list →
      (getClassAnnouncementsSafe env cid (env.activeUsers cid)).1 = some newl →
      newl.length = old_list.length →
      (processAnnCourse env st cid).events = st.events ∧
      (processAnnCourse env st cid).disk = st.disk ∧
      annGet (processAnnCourse env st cid).mem cid = some newl) ∧
    (∀ (env : GradeEnv) (st : GradeState) (t : Nat × Nat) (ck : Nat)
        (grades old_list : List Grade),
      env.cookie t.2 = some ck →
      env.fetchGrades t.1 ck = .ok grades →
      SMap.get st.mem t = some old_list →
      (grades.filter (fun g => g.status = "PUBLISHED")).length = old_list.length →
      (processGradeTarget env st t).events = st.events ∧
      (processGradeTarget env st t).disk = st.disk ∧
      SMap.get (processGradeTarget env st t).mem t =
        some (grades.filter (fun g => g.status = "PUBLISHED"))) ∧
    (∀ (env : InboxEnv) (uid ck : Nat) (st : InboxState) (forumId unreadCount : Nat)
        (old_list posts : List Post),
      SMap.get st.mem (uid, forumId) = some old_list →
      ¬ (unreadCount = 0 ∨ unreadCount = getUnreadMessagesCount st uid forumId) →
      env.fetchPosts ck forumId = .ok posts →
      posts.length = old_list.length →
      (processForum env uid ck st (forumId, unreadCount)).1.events = st.events ∧
      (processForum env uid ck st (forumId, unreadCount)).1.disk = st.disk ∧
      SMap.get (processForum env uid ck st (forumId, unreadCount)).1.mem (uid, forumId) =
        some posts ∧
      (processForum env uid ck st (forumId, unreadCount)).2 = none) := by
  refine ⟨?_, ?_, ?_⟩
  · intro env st cid old_list newl husers hold hfetch hlen
    simp only [processAnnCourse]
    rw [if_neg husers]
    simp only [hold, hfetch]
    rw [if_pos hlen]
    simp [annGet, SMap.get_set_self]
  · intro env st t ck grades old_list hck hfetch hold hlen
    simp only [processGradeTarget, hck, hfetch, hold]
    rw [if_pos hlen]
    simp [SMap.get_set_self]
  · intro env uid ck st forumId unreadCount old_list posts hold hgate hfetch hlen
    push_neg at hgate
    simp only [processForum, hold, hfetch]
    rw [if_neg (by simp [hgate.1, hgate.2])]
    rw [if_pos hlen]
    simp [SMap.get_set_self]

/-- Concrete announcements environment for the C6 witness: the fetch
returns a same-length collection with different membership. -/
def envC6a : AnnEnv :=
  { activeUsers := fun _ => [10]
    cookie := fun _ => some 7
    fetchAnn := fun _ _ => .ok [Ann.mk 2 (some 0) none 0]
    now := 0 }

/-- Concrete announcements state for the C6 witness. -/
def stC6a : AnnState :=
  { mem := [(1, some [Ann.mk 1 (some 0) none 0])]
    disk := [(1, some [Ann.mk 1 (some 0) none 0])]
    events := []
    reports := [] }

/-- Concrete grades environment for the C6 witness. -/
def envC6g : GradeEnv :=
  { activeUsers := fun _ => [10]
    cookie := fun _ => some 7
    fetchGrades := fun _ _ => .ok [Grade.mk 2 "PUBLISHED" none 200]
    enrich := fun _ _ => .ok 42 }

/-- Concrete grades state for the C6 witness. -/
def stC6g : GradeState :=
  { mem := [((1, 10), [Grade.mk 1 "PUBLISHED" none 100])]
    disk := [((1, 10), [Grade.mk 1 "PUBLISHED" none 100])]
    events := []
    reports := [] }

/-- Concrete inbox environment for the C6 witness. -/
def envC6i : InboxEnv :=
  { cookie := fun _ => some 7
    fetchInbox := fun _ => .ok [(1, 2)]
    fetchPosts := fun _ _ => .ok [Post.mk 9 false 0] }

/-- Concrete inbox state for the C6 witness. -/
def stC6i : InboxState :=
  { mem := [((10, 1), [Post.mk 1 true 0])]
    disk := [((10, 1), [Post.mk 1 true 0])]
    events := []
    reports := []
    postFetches := [] }

/-- Witness for C6 at concrete inputs, one per watcher. -/
theorem C6_same_length_no_events_no_persist_witness :
    ((processAnnCourse envC6a stC6a 1).events = stC6a.events ∧
      (processAnnCourse envC6a stC6a 1).disk = stC6a.disk ∧
      annGet (processAnnCourse envC6a stC6a 1).mem 1 = some [Ann.mk 2 (some 0) none 0]) ∧
    ((processGradeTarget envC6g stC6g (1, 10)).events = stC6g.events ∧
      (processGradeTarget envC6g stC6g (1, 10)).disk = stC6g.disk ∧
      SMap.get (processGradeTarget envC6g stC6g (1, 10)).mem (1, 10) =
        some [Grade.mk 2 "PUBLISHED" none 200]) ∧
    ((processForum envC6i 10 7 stC6i (1, 2)).1.events = stC6i.events ∧
      (processForum envC6i 10 7 stC6i (1, 2)).1.disk = stC6i.disk ∧
      SMap.get (processForum envC6i 10 7 stC6i (1, 2)).1.mem (10, 1) =
        some [Post.mk 9 false 0] ∧
      (processForum envC6i 10 7 stC6i (1, 2)).2 = none) := by
  refine ⟨?_, ?_, ?_⟩
  · exact C6_same_length_no_events_no_persist.1 envC6a stC6a 1
      [Ann.mk 1 (some 0) none 0] [Ann.mk 2 (some 0) none 0]
      (by decide) (by decide) (by decide) (by decide)
  · have h := C6_same_length_no_events_no_persist.2.1 envC6g stC6g (1, 10) 7
      [Grade.mk 2 "PUBLISHED" none 200] [Grade.mk 1 "PUBLISHED" none 100]
      (by decide) (by decide) (by decide) (by decide)
    simpa using h
  · exact C6_same_length_no_events_no_persist.2.2 envC6i 10 7 stC6i 1 2
      [Post.mk 1 true 0] [Post.mk 9 false 0]
      (by decide) (by decide) (by decide) (by decide)

theorem emitGrades_mem {env : GradeEnv} {ck : Nat} {key : Nat × Nat} {gs : List Grade}
    {e : (Nat × Nat) × Grade × Nat} (he : e ∈ (emitGrades env ck key gs).1) :
    e.1 = key ∧ e.2.1 ∈ gs ∧ e.2.1.userLastSeenDate = none := by
  induction gs with
  | nil => exact absurd he (by simp [emitGrades])
  | cons g rest ih =>
    by_cases hseen : g.userLastSeenDate.isSome
    · rw [emitGrades, if_pos hseen] at he
      obtain ⟨h1, h2, h3⟩ := ih he
      exact ⟨h1, List.mem_cons_of_mem g h2, h3⟩
    · rw [emitGrades, if_neg hseen] at he
      rcases hfb : env.enrich ck g.assessmentId with fb | _ | _
      · rw [hfb] at he
        simp only [List.mem_cons] at he
        rcases he with he | he
        · subst he
          exact ⟨rfl, List.mem_cons_self g rest,
            Option.not_isSome_iff_eq_none.mp hseen⟩
        · obtain ⟨h1, h2, h3⟩ := ih he
          exact ⟨h1, List.mem_cons_of_mem g h2, h3⟩
      · rw [hfb] at he
        exact absurd he (by simp)
      · rw [hfb] at he
        exact absurd he (by simp)

theorem emitGrades_map_of_ok {env : GradeEnv} {ck : Nat} {key : Nat × Nat}
    {gs : List Grade}
    (hok : ∀ g ∈ gs, g.userLastSeenDate = none → ∃ fb, env.enrich ck g.assessmentId = .ok fb) :
    ((emitGrades env ck key gs).1).map (fun e => e.2.1) =
      gs.filter (fun g => g.userLastSeenDate.isNone) := by
  induction gs with
  | nil => rfl
  | cons g rest ih =>
    have hrest : ∀ g ∈ rest, g.userLastSeenDate = none →
        ∃ fb, env.enrich ck g.assessmentId = .ok fb :=
      fun x hx => hok x (List.mem_cons_of_mem g hx)
    by_cases hseen : g.userLastSeenDate.isSome
    · rw [emitGrades, if_pos hseen,
        List.filter_cons_of_neg (by simp [Option.isNone_iff_eq_none]; exact
          Option.isSome_iff_ne_none.mp hseen)]
      exact ih hrest
    · have hnone := Option.not_isSome_iff_eq_none.mp hseen
      obtain ⟨fb, hfb⟩ := hok g (List.mem_cons_self g rest) hnone
      rw [emitGrades, if_neg hseen, hfb,
        List.filter_cons_of_pos (by simp [hnone])]
      simp only [List.map_cons]
      rw [ih hrest]

/-- C9: in the grades watcher, every newly emitted grade event is for a
diffed grade with a null `userLastSeenDate` and `PUBLISHED` status; any
collection newly cached is entirely `PUBLISHED`; and when every
enrichment fetch succeeds, the grades emitted for a size-changed target
are exactly the diffed grades with null `userLastSeenDate`, in order. -/
theorem C9_grade_visibility_filters :
    (∀ (env : GradeEnv) (st : GradeState) (t : Nat × Nat)
        (e : (Nat × Nat) × Grade × Nat),
      e ∈ (processGradeTarget env st t).events → e ∉ st.events →
      e.2.1.userLastSeenDate = none ∧ e.2.1.status = "PUBLISHED") ∧
    (∀ (env : GradeEnv) (st : GradeState) (t : Nat × Nat) (l : List Grade),
      SMap.get (processGradeTarget env st t).mem t = some l →
      SMap.get st.mem t = some l ∨ ∀ g ∈ l, g.status = "PUBLISHED") ∧
    (∀ (env : GradeEnv) (st : GradeState) (t : Nat × Nat) (ck : Nat)
        (grades old_list : List Grade),
      env.cookie t.2 = some ck →
      env.fetchGrades t.1 ck = .ok grades →
      SMap.get st.mem t = some old_list →
      (grades.filter (fun g => g.status = "PUBLISHED")).length ≠ old_list.length →
      (∀ g ∈ locateDifferenceInArrays Grade.id
          (grades.filter (fun g => g.status = "PUBLISHED")) old_list,
        g.userLastSeenDate = none → ∃ fb, env.enrich ck g.assessmentId = .ok fb) →
      ((processGradeTarget env st t).events).map (fun e => e.2.1) =
        (st.events).map (fun e => e.2.1) ++
          (locateDifferenceInArrays Grade.id
            (grades.filter (fun g => g.status = "PUBLISHED")) old_list).filter
            (fun g => g.userLastSeenDate.isNone)) := by
  refine ⟨?_, ?_, ?_⟩
  · intro env st t e hmem hnew
    rcases hck : env.cookie t.2 with _ | ck
    · simp only [processGradeTarget, hck] at hmem
      exact absurd hmem hnew
    · rcases hfg : env.fetchGrades t.1 ck with grades | _ | _
      · rcases hold : SMap.get st.mem t with _ | old_list
        · simp only [processGradeTarget, hck, hfg, hold] at hmem
          exact absurd hmem hnew
        · by_cases hlen : (grades.filter (fun g => g.status = "PUBLISHED")).length =
              old_list.length
          · simp only [processGradeTarget, hck, hfg, hold] at hmem
            rw [if_pos hlen] at hmem
            exact absurd hmem hnew
          · simp only [processGradeTarget, hck, hfg, hold] at hmem
            rw [if_neg hlen] at hmem
            rcases hr2 : (emitGrades env ck t (locateDifferenceInArrays Grade.id
                (grades.filter (fun g => g.status = "PUBLISHED")) old_list)).2
              with _ | b
            · simp only [hr2] at hmem
              simp only [List.mem_append] at hmem
              rcases hmem with hmem | hmem
              · exact absurd hmem hnew
              · obtain ⟨_, hdiff, hnone⟩ := emitGrades_mem hmem
                refine ⟨hnone, ?_⟩
                have hm := mem_a1_of_mem_locateDifference Grade.id _ old_list _ hdiff
                have := (List.mem_filter.mp hm).2
                simpa using this
            · cases b <;> simp only [hr2] at hmem <;>
                simp only [List.mem_append] at hmem <;>
                rcases hmem with hmem | hmem
              · exact absurd hmem hnew
              · obtain ⟨_, hdiff, hnone⟩ := emitGrades_mem hmem
                refine ⟨hnone, ?_⟩
                have hm := mem_a1_of_mem_locateDifference Grade.id _ old_list _ hdiff
                have := (List.mem_filter.mp hm).2
                simpa using this
              · exact absurd hmem hnew
              · obtain ⟨_, hdiff, hnone⟩ := emitGrades_mem hmem
                refine ⟨hnone, ?_⟩
                have hm := mem_a1_of_mem_locateDifference Grade.id _ old_list _ hdiff
                have := (List.mem_filter.mp hm).2
                simpa using this
      · simp only [processGradeTarget, hck, hfg] at hmem
        exact absurd hmem hnew
      · simp only [processGradeTarget, hck, hfg] at hmem
        exact absurd hmem hnew
  · intro env st t l hl
    rcases hck : env.cookie t.2 with _ | ck
    · simp only [processGradeTarget, hck] at hl
      exact Or.inl hl
    · rcases hfg : env.fetchGrades t.1 ck with grades | _ | _
      · right
        rcases hold : SMap.get st.mem t with _ | old_list
        · simp only [processGradeTarget, hck, hfg, hold, SMap.get_set_self,
            Option.some.injEq] at hl
          subst hl
          intro g hg
          simpa using (List.mem_filter.mp hg).2
        · by_cases hlen : (grades.filter (fun g => g.status = "PUBLISHED")).length =
              old_list.length
          · simp only [processGradeTarget, hck, hfg, hold] at hl
            rw [if_pos hlen] at hl
            simp only [SMap.get_set_self, Option.some.injEq] at hl
            subst hl
            intro g hg
            simpa using (List.mem_filter.mp hg).2
          · simp only [processGradeTarget, hck, hfg, hold] at hl
            rw [if_neg hlen] at hl
            rcases hr2 : (emitGrades env ck t (locateDifferenceInArrays Grade.id
                (grades.filter (fun g => g.status = "PUBLISHED")) old_list)).2
              with _ | b
            · simp only [hr2, SMap.get_set_self, Option.some.injEq] at hl
              subst hl
              intro g hg
              simpa using (List.mem_filter.mp hg).2
            · cases b <;> simp only [hr2, SMap.get_set_self, Option.some.injEq] at hl <;>
                subst hl <;> intro g hg <;> simpa using (List.mem_filter.mp hg).2
      · simp only [processGradeTarget, hck, hfg] at hl
        exact Or.inl hl
      · simp only [processGradeTarget, hck, hfg] at hl
        exact Or.inl hl
  · intro env st t ck grades old_list hck hfg hold hlen hok
    simp only [processGradeTarget, hck, hfg, hold]
    rw [if_neg hlen]
    rcases hr2 : (emitGrades env ck t (locateDifferenceInArrays Grade.id
        (grades.filter (fun g => g.status = "PUBLISHED")) old_list)).2 with _ | b
    · simp only [hr2, List.map_append]
      rw [emitGrades_map_of_ok hok]
    · cases b <;> simp only [hr2, List.map_append] <;> rw [emitGrades_map_of_ok hok]

/-- Concrete grades environment for the C9 witness: two published grades,
one already seen by the user, enrichment always succeeds. -/
def envC9 : GradeEnv :=
  { activeUsers := fun _ => [10]
    cookie := fun _ => some 7
    fetchGrades := fun _ _ =>
      .ok [Grade.mk 1 "PUBLISHED" none 100, Grade.mk 2 "PUBLISHED" (some 5) 200]
    enrich := fun _ _ => .ok 42 }

/-- Concrete grades state for the C9 witness: an empty cached snapshot for
the target. -/
def stC9 : GradeState :=
  { mem := [((1, 10), [])], disk := [((1, 10), [])], events := [], reports := [] }

/-- Witness for C9 at concrete inputs: the one emitted event is for the
unseen published grade; the newly cached list is all `PUBLISHED`; the
emitted grades are exactly the unseen diffed ones. -/
theorem C9_grade_visibility_filters_witness :
    (((1, 10), Grade.mk 1 "PUBLISHED" none 100, 42) ∈
        (processGradeTarget envC9 stC9 (1, 10)).events ∧
      ((Grade.mk 1 "PUBLISHED" none 100).userLastSeenDate = none ∧
        (Grade.mk 1 "PUBLISHED" none 100).status = "PUBLISHED")) ∧
    (SMap.get (processGradeTarget envC9 stC9 (1, 10)).mem (1, 10) =
        some [Grade.mk 1 "PUBLISHED" none 100, Grade.mk 2 "PUBLISHED" (some 5) 200] ∧
      (SMap.get stC9.mem (1, 10) =
          some [Grade.mk 1 "PUBLISHED" none 100, Grade.mk 2 "PUBLISHED" (some 5) 200] ∨
        ∀ g ∈ [Grade.mk 1 "PUBLISHED" none 100, Grade.mk 2 "PUBLISHED" (some 5) 200],
          g.status = "PUBLISHED")) ∧
    (((processGradeTarget envC9 stC9 (1, 10)).events).map (fun e => e.2.1) =
      (stC9.events).map (fun e => e.2.1) ++
        (locateDifferenceInArrays Grade.id
          ([Grade.mk 1 "PUBLISHED" none 100, Grade.mk 2 "PUBLISHED" (some 5) 200].filter
            (fun g => g.status = "PUBLISHED")) []).filter
          (fun g => g.userLastSeenDate.isNone)) := by
  refine ⟨⟨by decide, ?_⟩, ⟨by decide, ?_⟩, ?_⟩
  · exact C9_grade_visibility_filters.1 envC9 stC9 (1, 10)
      ((1, 10), Grade.mk 1 "PUBLISHED" none 100, 42) (by decide) (by decide)
  · exact C9_grade_visibility_filters.2.1 envC9 stC9 (1, 10)
      [Grade.mk 1 "PUBLISHED" none 100, Grade.mk 2 "PUBLISHED" (some 5) 200] (by decide)
  · exact C9_grade_visibility_filters.2.2 envC9 stC9 (1, 10) 7
      [Grade.mk 1 "PUBLISHED" none 100, Grade.mk 2 "PUBLISHED" (some 5) 200] []
      (by decide) (by decide) (by decide) (by decide) (fun g _ _ => ⟨42, rfl⟩)

/-- Concrete grades environment for the C4 counterexample: two unseen
published grades are diffed; the enrichment fetch fails for the first
(assessment 100) and would succeed for the second. -/
def envC4 : GradeEnv :=
  { activeUsers := fun _ => [10]
    cookie := fun _ => some 7
    fetchGrades := fun _ _ =>
      .ok [Grade.mk 1 "PUBLISHED" none 100, Grade.mk 2 "PUBLISHED" none 200]
    enrich := fun _ aid => if aid = 100 then .errOther else .ok 42 }

/-- Concrete grades state for the C4 counterexample. -/
def stC4 : GradeState :=
  { mem := [((1, 10), [])], disk := [((1, 10), [])], events := [], reports := [] }

/-- C4: refuted as stated.  With two diffed, filter-passing grades whose
first enrichment fetch fails and whose second would succeed, the thrown
error reaches the per-target catch and the emission loop never resumes:
no event at all is emitted, in particular none for the sibling grade. -/
theorem C4_counterexample :
    locateDifferenceInArrays Grade.id
        [Grade.mk 1 "PUBLISHED" none 100, Grade.mk 2 "PUBLISHED" none 200] [] =
      [Grade.mk 1 "PUBLISHED" none 100, Grade.mk 2 "PUBLISHED" none 200] ∧
    (Grade.mk 2 "PUBLISHED" none 200).userLastSeenDate = none ∧
    envC4.enrich 7 (Grade.mk 2 "PUBLISHED" none 200).assessmentId = .ok 42 ∧
    envC4.enrich 7 (Grade.mk 1 "PUBLISHED" none 100).assessmentId = .errOther ∧
    (processGradeTarget envC4 stC4 (1, 10)).events = [] := by
  decide

/-- C4 (amended): when the enrichment fetch fails for one diffed,
filter-passing grade, that grade's event and the events of all subsequent
diffed grades of the same target are dropped (the thrown error ends the
emission loop); the filter-passing grades preceding it are still emitted,
and the target's snapshot update and persist have already happened, so
the rest of the tick proceeds from the updated snapshot. -/
theorem C4_enrichment_failure_ends_emission_loop :
    (∀ (env : GradeEnv) (ck : Nat) (key : Nat × Nat) (xs ys : List Grade) (g : Grade),
      (∀ x ∈ xs, x.userLastSeenDate = none → ∃ fb, env.enrich ck x.assessmentId = .ok fb) →
      g.userLastSeenDate = none →
      (env.enrich ck g.assessmentId = .err401 ∨ env.enrich ck g.assessmentId = .errOther) →
      ((emitGrades env ck key (xs ++ g :: ys)).1).map (fun e => e.2.1) =
        xs.filter (fun x => x.userLastSeenDate.isNone) ∧
      (emitGrades env ck key (xs ++ g :: ys)).2.isSome) ∧
    (∀ (env : GradeEnv) (st : GradeState) (t : Nat × Nat) (ck : Nat)
        (grades old_list : List Grade),
      env.cookie t.2 = some ck →
      env.fetchGrades t.1 ck = .ok grades →
      SMap.get st.mem t = some old_list →
      (grades.filter (fun g => g.status = "PUBLISHED")).length ≠ old_list.length →
      (processGradeTarget env st t).events =
        st.events ++ (emitGrades env ck t (locateDifferenceInArrays Grade.id
          (grades.filter (fun g => g.status = "PUBLISHED")) old_list)).1 ∧
      SMap.get (processGradeTarget env st t).mem t =
        some (grades.filter (fun g => g.status = "PUBLISHED")) ∧
      SMap.get (processGradeTarget env st t).disk t =
        some (grades.filter (fun g => g.status = "PUBLISHED"))) := by
  constructor
  · intro env ck key xs ys g hxs hg hfail
    induction xs with
    | nil =>
      rw [List.nil_append, emitGrades,
        if_neg (by simp [hg])]
      rcases hfail with hf | hf <;> rw [hf] <;> simp
    | cons x rest ih =>
      have hrest : ∀ y ∈ rest, y.userLastSeenDate = none →
          ∃ fb, env.enrich ck y.assessmentId = .ok fb :=
        fun y hy => hxs y (List.mem_cons_of_mem x hy)
      by_cases hseen : x.userLastSeenDate.isSome
      · have hnotnone : x.userLastSeenDate.isNone = false := by
          cases hx : x.userLastSeenDate <;> simp_all
        rw [List.cons_append, emitGrades, if_pos hseen,
          List.filter_cons_of_neg (by simp [hnotnone])]
        exact ih hrest
      · have hnone := Option.not_isSome_iff_eq_none.mp hseen
        obtain ⟨fb, hfb⟩ := hxs x (List.mem_cons_self x rest) hnone
        obtain ⟨ih1, ih2⟩ := ih hrest
        rw [List.cons_append, emitGrades, if_neg hseen, hfb,
          List.filter_cons_of_pos (by simp [hnone])]
        constructor
        · simp only [List.map_cons]
          rw [ih1]
        · simpa using ih2
  · intro env st t ck grades old_list hck hfg hold hlen
    simp only [processGradeTarget, hck, hfg, hold]
    rw [if_neg hlen]
    rcases hr2 : (emitGrades env ck t (locateDifferenceInArrays Grade.id
        (grades.filter (fun g => g.status = "PUBLISHED")) old_list)).2 with _ | b
    · simp [hr2, SMap.get_set_self]
    · cases b <;> simp [hr2, SMap.get_set_self]

/-- Witness for C4 (amended) at the counterexample input: the failing
first enrichment yields no emitted sibling events, while the snapshot is
still updated and persisted. -/
theorem C4_enrichment_failure_ends_emission_loop_witness :
    (((emitGrades envC4 7 (1, 10)
        ([] ++ Grade.mk 1 "PUBLISHED" none 100 :: [Grade.mk 2 "PUBLISHED" none 200])).1).map
        (fun e => e.2.1) =
      List.filter (fun x => x.userLastSeenDate.isNone) [] ∧
      (emitGrades envC4 7 (1, 10)
        ([] ++ Grade.mk 1 "PUBLISHED" none 100 :: [Grade.mk 2 "PUBLISHED" none 200])).2.isSome) ∧
    ((processGradeTarget envC4 stC4 (1, 10)).events =
      stC4.events ++ (emitGrades envC4 7 (1, 10) (locateDifferenceInArrays Grade.id
        (List.filter (fun g => g.status = "PUBLISHED")
          [Grade.mk 1 "PUBLISHED" none 100, Grade.mk 2 "PUBLISHED" none 200]) [])).1 ∧
      SMap.get (processGradeTarget envC4 stC4 (1, 10)).mem (1, 10) =
        some (List.filter (fun g => g.status = "PUBLISHED")
          [Grade.mk 1 "PUBLISHED" none 100, Grade.mk 2 "PUBLISHED" none 200]) ∧
      SMap.get (processGradeTarget envC4 stC4 (1, 10)).disk (1, 10) =
        some (List.filter (fun g => g.status = "PUBLISHED")
          [Grade.mk 1 "PUBLISHED" none 100, Grade.mk 2 "PUBLISHED" none 200])) :=
  ⟨C4_enrichment_failure_ends_emission_loop.1 envC4 7 (1, 10) []
      [Grade.mk 2 "PUBLISHED" none 200] (Grade.mk 1 "PUBLISHED" none 100)
      (fun x hx => absurd hx (List.not_mem_nil x)) (by decide) (Or.inr (by decide)),
    C4_enrichment_failure_ends_emission_loop.2 envC4 stC4 (1, 10) 7
      [Grade.mk 1 "PUBLISHED" none 100, Grade.mk 2 "PUBLISHED" none 200] []
      (by decide) (by decide) (by decide) (by decide)⟩

theorem mem_401_reports_getClassAnnouncementsSafe (env : AnnEnv) (cid : Nat)
    (us : List Nat) (uid ck : Nat) (hmem : uid ∈ us) (hck : env.cookie uid = some ck)
    (h401 : env.fetchAnn cid ck = .err401)
    (hfail : (getClassAnnouncementsSafe env cid us).1 = none) :
    uid ∈ (getClassAnnouncementsSafe env cid us).2 := by
  induction us with
  | nil => cases hmem
  | cons u rest ih =>
    rcases List.mem_cons.mp hmem with heq | hmem'
    · subst heq
      rw [getClassAnnouncementsSafe]
      simp only [hck, h401]
      simp
    · rw [getClassAnnouncementsSafe] at hfail ⊢
      rcases hcku : env.cookie u with _ | cku
      · simp only [hcku] at hfail ⊢
        exact ih hmem' hfail
      · simp only [hcku] at hfail ⊢
        rcases hfu : env.fetchAnn cid cku with l | _ | _
        · simp only [hfu] at hfail
          exact absurd hfail (by simp)
        · simp only [hfu] at hfail ⊢
          exact List.mem_cons_of_mem u (ih hmem' hfail)
        · simp only [hfu] at hfail ⊢
          exact ih hmem' hfail

/-- C1: a target whose remote fetch fails keeps its in-memory snapshot and
its persisted form exactly as they were, emits no event, and a 401 yields
a `handle401` report for the user whose cookie was used.  For
announcements the failed safe-fetch falls back to the old snapshot (the
fresh-install case additionally needs the load-on-start coherence that a
never-populated key has no cache file); for grades and inbox the thrown
error skips the snapshot update entirely. -/
theorem C1_fetch_failure_leaves_snapshot_untouched :
    (∀ (env : AnnEnv) (st : AnnState) (cid : Nat),
      (getClassAnnouncementsSafe env cid (env.activeUsers cid)).1 = none →
      (annGet st.mem cid = none → annGet st.disk cid = none) →
      annGet (processAnnCourse env st cid).mem cid = annGet st.mem cid ∧
      annGet (processAnnCourse env st cid).disk cid = annGet st.disk cid ∧
      (processAnnCourse env st cid).events = st.events ∧
      (∀ uid ck, uid ∈ env.activeUsers cid → env.cookie uid = some ck →
        env.fetchAnn cid ck = .err401 →
        uid ∈ (processAnnCourse env st cid).reports)) ∧
    (∀ (env : GradeEnv) (st : GradeState) (t : Nat × Nat) (ck : Nat),
      env.cookie t.2 = some ck →
      (env.fetchGrades t.1 ck = .err401 ∨ env.fetchGrades t.1 ck = .errOther) →
      (processGradeTarget env st t).mem = st.mem ∧
      (processGradeTarget env st t).disk = st.disk ∧
      (processGradeTarget env st t).events = st.events ∧
      (env.fetchGrades t.1 ck = .err401 →
        (processGradeTarget env st t).reports = st.reports ++ [t.2])) ∧
    (∀ (env : GradeEnv) (st : GradeState) (t : Nat × Nat),
      env.cookie t.2 = none → processGradeTarget env st t = st) ∧
    (∀ (env : InboxEnv) (uid ck : Nat) (st : InboxState) (f : Nat × Nat),
      (env.fetchPosts ck f.1 = .err401 ∨ env.fetchPosts ck f.1 = .errOther) →
      (processForum env uid ck st f).1.mem = st.mem ∧
      (processForum env uid ck st f).1.disk = st.disk ∧
      (processForum env uid ck st f).1.events = st.events) ∧
    (∀ (env : InboxEnv) (st : InboxState) (uid ck : Nat) (forums : List (Nat × Nat)),
      env.cookie uid = some ck → env.fetchInbox ck = .ok forums →
      (processForumsLoop env uid ck st forums).2 = some .e401 →
      (processInboxUser env st uid).reports =
        (processForumsLoop env uid ck st forums).1.reports ++ [uid]) := by
  refine ⟨?_, ?_, ?_, ?_, ?_⟩
  · intro env st cid hfail hcoh
    by_cases husers : env.activeUsers cid = []
    · have hres : processAnnCourse env st cid = st := by
        simp only [processAnnCourse]
        rw [if_pos husers]
      rw [hres]
      refine ⟨rfl, rfl, rfl, ?_⟩
      intro uid ck hmem
      rw [husers] at hmem
      exact absurd hmem (List.not_mem_nil uid)
    · rcases hold : annGet st.mem cid with _ | old_list
      · have hdisk := hcoh hold
        simp only [processAnnCourse]
        rw [if_neg husers]
        simp only [hold, hfail]
        refine ⟨?_, ?_, trivial, ?_⟩
        · simp [annGet, SMap.get_set_self]
        · rw [hdisk]
          simp [annGet, SMap.get_set_self]
        · intro uid ck hmem hck h401
          simp only [List.mem_append]
          exact Or.inr (mem_401_reports_getClassAnnouncementsSafe env cid
            (env.activeUsers cid) uid ck hmem hck h401 hfail)
      · simp only [processAnnCourse]
        rw [if_neg husers]
        simp only [hold, hfail]
        rw [if_pos trivial]
        refine ⟨?_, rfl, rfl, ?_⟩
        · simp [annGet, SMap.get_set_self]
        · intro uid ck hmem hck h401
          simp only [List.mem_append]
          exact Or.inr (mem_401_reports_getClassAnnouncementsSafe env cid
            (env.activeUsers cid) uid ck hmem hck h401 hfail)
  · intro env st t ck hck hfail
    rcases hfail with hf | hf <;> simp [processGradeTarget, hck, hf]
  · intro env st t hck
    simp [processGradeTarget, hck]
  · intro env uid ck st f hfail
    by_cases hgate : (SMap.get st.mem (uid, f.1)).isSome &&
        (f.2 == 0 || f.2 == getUnreadMessagesCount st uid f.1)
    · simp [processForum, hgate]
    · rcases hfail with hf | hf <;> simp [processForum, hgate, hf]
  · intro env st uid ck forums hck hfi hloop
    simp only [processInboxUser, hck, hfi, hloop]

/-- Concrete announcements environment for the C1 witness: the only active
user's fetch yields a 401. -/
def envC1a : AnnEnv :=
  { activeUsers := fun _ => [10]
    cookie := fun _ => some 7
    fetchAnn := fun _ _ => .err401
    now := 0 }

/-- Concrete announcements state for the C1 witness. -/
def stC1a : AnnState :=
  { mem := [(1, some [Ann.mk 1 (some 0) none 0])]
    disk := [(1, some [Ann.mk 1 (some 0) none 0])]
    events := []
    reports := [] }

/-- Concrete grades environment for the C1 witness (fetch yields 401). -/
def envC1g : GradeEnv :=
  { activeUsers := fun _ => [10]
    cookie := fun _ => some 7
    fetchGrades := fun _ _ => .err401
    enrich := fun _ _ => .ok 42 }

/-- Concrete grades environment for the C1 witness (no cookie resolves). -/
def envC1g2 : GradeEnv :=
  { activeUsers := fun _ => [10]
    cookie := fun _ => none
    fetchGrades := fun _ _ => .err401
    enrich := fun _ _ => .ok 42 }

/-- Concrete grades state for the C1 witness. -/
def stC1g : GradeState :=
  { mem := [((1, 10), [Grade.mk 1 "PUBLISHED" none 100])]
    disk := [((1, 10), [Grade.mk 1 "PUBLISHED" none 100])]
    events := []
    reports := [] }

/-- Concrete inbox environment for the C1 witness: the post fetch for the
only forum yields a 401. -/
def envC1i : InboxEnv :=
  { cookie := fun _ => some 7
    fetchInbox := fun _ => .ok [(1, 5)]
    fetchPosts := fun _ _ => .err401 }

/-- Concrete inbox state for the C1 witness. -/
def stC1i : InboxState :=
  { mem := [((10, 1), [Post.mk 1 true 0])]
    disk := [((10, 1), [Post.mk 1 true 0])]
    events := []
    reports := []
    postFetches := [] }

/-- Witness for C1 at concrete inputs, one instance per conjunct. -/
theorem C1_fetch_failure_leaves_snapshot_untouched_witness :
    (annGet (processAnnCourse envC1a stC1a 1).mem 1 = annGet stC1a.mem 1 ∧
      annGet (processAnnCourse envC1a stC1a 1).disk 1 = annGet stC1a.disk 1 ∧
      (processAnnCourse envC1a stC1a 1).events = stC1a.events ∧
      10 ∈ (processAnnCourse envC1a stC1a 1).reports) ∧
    ((processGradeTarget envC1g stC1g (1, 10)).mem = stC1g.mem ∧
      (processGradeTarget envC1g stC1g (1, 10)).disk = stC1g.disk ∧
      (processGradeTarget envC1g stC1g (1, 10)).events = stC1g.events ∧
      (processGradeTarget envC1g stC1g (1, 10)).reports = stC1g.reports ++ [10]) ∧
    (processGradeTarget envC1g2 stC1g (1, 10) = stC1g) ∧
    ((processForum envC1i 10 7 stC1i (1, 5)).1.mem = stC1i.mem ∧
      (processForum envC1i 10 7 stC1i (1, 5)).1.disk = stC1i.disk ∧
      (processForum envC1i 10 7 stC1i (1, 5)).1.events = stC1i.events) ∧
    ((processInboxUser envC1i stC1i 10).reports =
      (processForumsLoop envC1i 10 7 stC1i [(1, 5)]).1.reports ++ [10]) := by
  have h1 := C1_fetch_failure_leaves_snapshot_untouched.1 envC1a stC1a 1
    (by decide) (by decide)
  have h2 := C1_fetch_failure_leaves_snapshot_untouched.2.1 envC1g stC1g (1, 10) 7
    (by decide) (Or.inl (by decide))
  have h3 := C1_fetch_failure_leaves_snapshot_untouched.2.2.1 envC1g2 stC1g (1, 10)
    (by decide)
  have h4 := C1_fetch_failure_leaves_snapshot_untouched.2.2.2.1 envC1i 10 7 stC1i (1, 5)
    (Or.inl (by decide))
  have h5 := C1_fetch_failure_leaves_snapshot_untouched.2.2.2.2 envC1i stC1i 10 7 [(1, 5)]
    (by decide) (by decide) (by decide)
  exact ⟨⟨h1.1, h1.2.1, h1.2.2.1, h1.2.2.2 10 7 (by decide) (by decide) (by decide)⟩,
    ⟨h2.1, h2.2.1, h2.2.2.1, h2.2.2.2 (by decide)⟩, h3, h4, h5⟩

/-- Concrete inbox environment for the C3 counterexample: user 10 has two
forums with pending unread mismatches; the post fetch fails for forum 1
and would succeed for forum 2 with a new unread post. -/
def envC3 : InboxEnv :=
  { cookie := fun u => if u = 10 then some 7 else none
    fetchInbox := fun _ => .ok [(1, 5), (2, 5)]
    fetchPosts := fun _ f => if f = 1 then .errOther else .ok [Post.mk 9 false 0] }

/-- Concrete inbox state for the C3 counterexample: empty snapshots for
both forums of user 10. -/
def stC3 : InboxState :=
  { mem := [((10, 1), []), ((10, 2), [])]
    disk := [((10, 1), []), ((10, 2), [])]
    events := []
    reports := []
    postFetches := [] }

/-- C3: refuted as stated.  In the inbox watcher one target is a
(user, forum) pair, but the catch sits at the user level: processing
target (10, 2) alone would fetch, update its snapshot and emit one event,
yet in the user's tick the failure on target (10, 1) aborts the forum
loop, so the fetch for forum 2 is never placed, its snapshot stays
untouched and no event is emitted. -/
theorem C3_counterexample :
    ((processForum envC3 10 7 stC3 (2, 5)).1.events = [((10, 2), Post.mk 9 false 0)] ∧
      SMap.get (processForum envC3 10 7 stC3 (2, 5)).1.mem (10, 2) =
        some [Post.mk 9 false 0]) ∧
    (processInboxUser envC3 stC3 10).events = [] ∧
    SMap.get (processInboxUser envC3 stC3 10).mem (10, 2) = some [] ∧
    (processInboxUser envC3 stC3 10).postFetches = [(10, 1)] := by
  decide

/-- The events of `evs` emitted for announcement target `cid`. -/
def annEventsFor (cid : Nat) (evs : List (Nat × Ann)) : List (Nat × Ann) :=
  evs.filter (fun e => e.1 == cid)

theorem annEventsFor_append (cid : Nat) (l1 l2 : List (Nat × Ann)) :
    annEventsFor cid (l1 ++ l2) = annEventsFor cid l1 ++ annEventsFor cid l2 := by
  unfold annEventsFor
  exact List.filter_append l1 l2

theorem annEventsFor_map_self (cid : Nat) (l : List Ann) :
    annEventsFor cid (l.map (fun a => (cid, a))) = l.map (fun a => (cid, a)) := by
  induction l with
  | nil => rfl
  | cons a l ih =>
    simp only [List.map_cons, annEventsFor, List.filter_cons] at ih ⊢
    rw [if_pos (by simp)]
    rw [ih]

theorem annEventsFor_map_ne (cid cid' : Nat) (h : cid' ≠ cid) (l : List Ann) :
    annEventsFor cid (l.map (fun a => (cid', a))) = [] := by
  induction l with
  | nil => rfl
  | cons a l ih =>
    simp only [List.map_cons, annEventsFor, List.filter_cons] at ih ⊢
    rw [if_neg (by simp [h]), ih]

theorem processAnnCourse_frame (env : AnnEnv) (st : AnnState) (cid cid' : Nat)
    (h : cid' ≠ cid) :
    annGet (processAnnCourse env st cid').mem cid = annGet st.mem cid ∧
    annGet (processAnnCourse env st cid').disk cid = annGet st.disk cid ∧
    annEventsFor cid (processAnnCourse env st cid').events = annEventsFor cid st.events := by
  by_cases husers : env.activeUsers cid' = []
  · have hres : processAnnCourse env st cid' = st := by
      simp only [processAnnCourse]
      rw [if_pos husers]
    rw [hres]
    exact ⟨rfl, rfl, rfl⟩
  · simp only [processAnnCourse]
    rw [if_neg husers]
    rcases hold : annGet st.mem cid' with _ | old_list
    · simp only [hold]
      exact ⟨by simp [annGet, SMap.get_set_ne _ _ _ _ (Ne.symm h)],
        by simp [annGet, SMap.get_set_ne _ _ _ _ (Ne.symm h)], by trivial⟩
    · simp only [hold]
      split
      · exact ⟨by simp [annGet, SMap.get_set_ne _ _ _ _ (Ne.symm h)], by trivial, by trivial⟩
      · refine ⟨by simp [annGet, SMap.get_set_ne _ _ _ _ (Ne.symm h)],
          by simp [annGet, SMap.get_set_ne _ _ _ _ (Ne.symm h)], ?_⟩
        rw [annEventsFor_append, annEventsFor_map_ne cid cid' h, List.append_nil]

theorem processAnnCourse_local (env : AnnEnv) (st st' : AnnState) (cid : Nat)
    (h : annGet st.mem cid = annGet st'.mem cid) :
    annGet (processAnnCourse env st cid).mem cid =
      annGet (processAnnCourse env st' cid).mem cid ∧
    ((annGet (processAnnCourse env st cid).disk cid = annGet st.disk cid ∧
      annGet (processAnnCourse env st' cid).disk cid = annGet st'.disk cid) ∨
      annGet (processAnnCourse env st cid).disk cid =
        annGet (processAnnCourse env st' cid).disk cid) ∧
    ∃ E, annEventsFor cid (processAnnCourse env st cid).events =
        annEventsFor cid st.events ++ E ∧
      annEventsFor cid (processAnnCourse env st' cid).events =
        annEventsFor cid st'.events ++ E := by
  by_cases husers : env.activeUsers cid = []
  · have e1 : processAnnCourse env st cid = st := by
      simp only [processAnnCourse]
      rw [if_pos husers]
    have e2 : processAnnCourse env st' cid = st' := by
      simp only [processAnnCourse]
      rw [if_pos husers]
    rw [e1, e2]
    exact ⟨h, Or.inl ⟨rfl, rfl⟩, [], by simp, by simp⟩
  · simp only [processAnnCourse]
    rw [if_neg husers, if_neg husers]
    rcases hold : annGet st.mem cid with _ | old_list
    · have hold' : annGet st'.mem cid = none := (h.symm).trans hold
      simp only [hold, hold']
      refine ⟨?_, Or.inr ?_, [], by simp, by simp⟩
      · simp [annGet, SMap.get_set_self]
      · simp [annGet, SMap.get_set_self]
    · have hold' : annGet st'.mem cid = some old_list := (h.symm).trans hold
      simp only [hold, hold']
      rcases hfr : (getClassAnnouncementsSafe env cid (env.activeUsers cid)).1 with _ | newl
      · simp only [hfr]
        rw [if_pos trivial, if_pos trivial]
        refine ⟨?_, Or.inl ⟨by trivial, by trivial⟩, [], by simp, by simp⟩
        simp [annGet, SMap.get_set_self]
      · simp only [hfr]
        by_cases hlen : newl.length = old_list.length
        · rw [if_pos hlen, if_pos hlen]
          refine ⟨?_, Or.inl ⟨by trivial, by trivial⟩, [], by simp, by simp⟩
          simp [annGet, SMap.get_set_self]
        · rw [if_neg hlen, if_neg hlen]
          refine ⟨?_, Or.inr ?_,
            (locateDifferenceInArrays Ann.id newl old_list).filter
              (isRecentAnnouncement env.now) |>.map (fun a => (cid, a)), ?_, ?_⟩
          · simp [annGet, SMap.get_set_self]
          · simp [annGet, SMap.get_set_self]
          · rw [annEventsFor_append, annEventsFor_map_self]
          · rw [annEventsFor_append, annEventsFor_map_self]

theorem watchForAnnouncements_frame (env : AnnEnv) (cs : List Nat) (cid : Nat) :
    ∀ st : AnnState, (∀ c ∈ cs, c ≠ cid) →
    annGet (watchForAnnouncements env cs st).mem cid = annGet st.mem cid ∧
    annGet (watchForAnnouncements env cs st).disk cid = annGet st.disk cid ∧
    annEventsFor cid (watchForAnnouncements env cs st).events =
      annEventsFor cid st.events := by
  induction cs with
  | nil => exact fun st _ => ⟨rfl, rfl, rfl⟩
  | cons c rest ih =>
    intro st h
    have hc : c ≠ cid := h c (List.mem_cons_self c rest)
    have hrest : ∀ x ∈ rest, x ≠ cid := fun x hx => h x (List.mem_cons_of_mem c hx)
    obtain ⟨m2, d2, e2⟩ := processAnnCourse_frame env st cid c hc
    obtain ⟨m1, d1, e1⟩ := ih (processAnnCourse env st c) hrest
    exact ⟨m1.trans m2, d1.trans d2, e1.trans e2⟩

theorem processAnnCourse_shift (env : AnnEnv) (st : AnnState) (c cid : Nat)
    (hc : c ≠ cid) :
    annGet (processAnnCourse env (processAnnCourse env st c) cid).mem cid =
      annGet (processAnnCourse env st cid).mem cid ∧
    annGet (processAnnCourse env (processAnnCourse env st c) cid).disk cid =
      annGet (processAnnCourse env st cid).disk cid ∧
    annEventsFor cid (processAnnCourse env (processAnnCourse env st c) cid).events =
      annEventsFor cid (processAnnCourse env st cid).events := by
  obtain ⟨fm, fd, fe⟩ := processAnnCourse_frame env st cid c hc
  obtain ⟨lm, ld, le⟩ := processAnnCourse_local env (processAnnCourse env st c) st cid fm
  refine ⟨lm, ?_, ?_⟩
  · rcases ld with ⟨d1, d2⟩ | deq
    · rw [d1, d2, fd]
    · exact deq
  · obtain ⟨E, he1, he2⟩ := le
    rw [he1, he2, fe]

/-- The events of `evs` emitted for grades target `t`. -/
def gradeEventsFor (t : Nat × Nat) (evs : List ((Nat × Nat) × Grade × Nat)) :
    List ((Nat × Nat) × Grade × Nat) :=
  evs.filter (fun e => e.1 == t)

theorem gradeEventsFor_append (t : Nat × Nat) (l1 l2 : List ((Nat × Nat) × Grade × Nat)) :
    gradeEventsFor t (l1 ++ l2) = gradeEventsFor t l1 ++ gradeEventsFor t l2 := by
  unfold gradeEventsFor
  exact List.filter_append l1 l2

theorem gradeEventsFor_self (t : Nat × Nat) (l : List ((Nat × Nat) × Grade × Nat))
    (h : ∀ e ∈ l, e.1 = t) : gradeEventsFor t l = l := by
  unfold gradeEventsFor
  rw [List.filter_eq_self]
  intro e he
  simpa using h e he

theorem gradeEventsFor_ne (t t' : Nat × Nat) (l : List ((Nat × Nat) × Grade × Nat))
    (hne : t' ≠ t) (h : ∀ e ∈ l, e.1 = t') : gradeEventsFor t l = [] := by
  unfold gradeEventsFor
  rw [List.filter_eq_nil_iff]
  intro e he
  simp [h e he, hne]

theorem processGradeTarget_frame (env : GradeEnv) (st : GradeState) (t t' : Nat × Nat)
    (h : t' ≠ t) :
    SMap.get (processGradeTarget env st t').mem t = SMap.get st.mem t ∧
    SMap.get (processGradeTarget env st t').disk t = SMap.get st.disk t ∧
    gradeEventsFor t (processGradeTarget env st t').events = gradeEventsFor t st.events := by
  rcases hck : env.cookie t'.2 with _ | ck
  · simp only [processGradeTarget, hck]
    exact ⟨by trivial, by trivial, by trivial⟩
  · rcases hfg : env.fetchGrades t'.1 ck with grades | _ | _
    · rcases hold : SMap.get st.mem t' with _ | old_list
      · simp only [processGradeTarget, hck, hfg, hold]
        exact ⟨by simp [SMap.get_set_ne _ _ _ _ (Ne.symm h)],
          by simp [SMap.get_set_ne _ _ _ _ (Ne.symm h)], by trivial⟩
      · by_cases hlen : (grades.filter (fun g => g.status = "PUBLISHED")).length =
            old_list.length
        · simp only [processGradeTarget, hck, hfg, hold]
          rw [if_pos hlen]
          exact ⟨by simp [SMap.get_set_ne _ _ _ _ (Ne.symm h)], by trivial, by trivial⟩
        · simp only [processGradeTarget, hck, hfg, hold]
          rw [if_neg hlen]
          rcases hr2 : (emitGrades env ck t' (locateDifferenceInArrays Grade.id
              (grades.filter (fun g => g.status = "PUBLISHED")) old_list)).2 with _ | b
          · simp only [hr2]
            refine ⟨by simp [SMap.get_set_ne _ _ _ _ (Ne.symm h)],
              by simp [SMap.get_set_ne _ _ _ _ (Ne.symm h)], ?_⟩
            rw [gradeEventsFor_append,
              gradeEventsFor_ne t t' _ h (fun e he => (emitGrades_mem he).1),
              List.append_nil]
          · cases b <;> simp only [hr2] <;>
              refine ⟨by simp [SMap.get_set_ne _ _ _ _ (Ne.symm h)],
                by simp [SMap.get_set_ne _ _ _ _ (Ne.symm h)], ?_⟩ <;>
              rw [gradeEventsFor_append,
                gradeEventsFor_ne t t' _ h (fun e he => (emitGrades_mem he).1),
                List.append_nil]
    · simp only [processGradeTarget, hck, hfg]
      exact ⟨by trivial, by trivial, by trivial⟩
    · simp only [processGradeTarget, hck, hfg]
      exact ⟨by trivial, by trivial, by trivial⟩

theorem processGradeTarget_local (env : GradeEnv) (st st' : GradeState) (t : Nat × Nat)
    (h : SMap.get st.mem t = SMap.get st'.mem t) :
    SMap.get (processGradeTarget env st t).mem t =
      SMap.get (processGradeTarget env st' t).mem t ∧
    ((SMap.get (processGradeTarget env st t).disk t = SMap.get st.disk t ∧
      SMap.get (processGradeTarget env st' t).disk t = SMap.get st'.disk t) ∨
      SMap.get (processGradeTarget env st t).disk t =
        SMap.get (processGradeTarget env st' t).disk t) ∧
    ∃ E, gradeEventsFor t (processGradeTarget env st t).events =
        gradeEventsFor t st.events ++ E ∧
      gradeEventsFor t (processGradeTarget env st' t).events =
        gradeEventsFor t st'.events ++ E := by
  rcases hck : env.cookie t.2 with _ | ck
  · simp only [processGradeTarget, hck]
    exact ⟨h, Or.inl ⟨by trivial, by trivial⟩, [], by simp, by simp⟩
  · rcases hfg : env.fetchGrades t.1 ck with grades | _ | _
    · rcases hold : SMap.get st.mem t with _ | old_list
      · have hold' : SMap.get st'.mem t = none := (h.symm).trans hold
        simp only [processGradeTarget, hck, hfg, hold, hold']
        refine ⟨?_, Or.inr ?_, [], by simp, by simp⟩
        · simp [SMap.get_set_self]
        · simp [SMap.get_set_self]
      · have hold' : SMap.get st'.mem t = some old_list := (h.symm).trans hold
        simp only [processGradeTarget, hck, hfg, hold, hold']
        by_cases hlen : (grades.filter (fun g => g.status = "PUBLISHED")).length =
            old_list.length
        · rw [if_pos hlen, if_pos hlen]
          refine ⟨?_, Or.inl ⟨by trivial, by trivial⟩, [], by simp, by simp⟩
          simp [SMap.get_set_self]
        · rw [if_neg hlen, if_neg hlen]
          rcases hr2 : (emitGrades env ck t (locateDifferenceInArrays Grade.id
              (grades.filter (fun g => g.status = "PUBLISHED")) old_list)).2 with _ | b
          · simp only [hr2]
            refine ⟨by simp [SMap.get_set_self], Or.inr (by simp [SMap.get_set_self]),
              (emitGrades env ck t (locateDifferenceInArrays Grade.id
                (grades.filter (fun g => g.status = "PUBLISHED")) old_list)).1, ?_, ?_⟩
            · rw [gradeEventsFor_append,
                gradeEventsFor_self t _ (fun e he => (emitGrades_mem he).1)]
            · rw [gradeEventsFor_append,
                gradeEventsFor_self t _ (fun e he => (emitGrades_mem he).1)]
          · cases b <;> simp only [hr2] <;>
              refine ⟨by simp [SMap.get_set_self], Or.inr (by simp [SMap.get_set_self]),
                (emitGrades env ck t (locateDifferenceInArrays Grade.id
                  (grades.filter (fun g => g.status = "PUBLISHED")) old_list)).1, ?_, ?_⟩ <;>
              rw [gradeEventsFor_append,
                gradeEventsFor_self t _ (fun e he => (emitGrades_mem he).1)]
    · simp only [processGradeTarget, hck, hfg]
      exact ⟨h, Or.inl ⟨by trivial, by trivial⟩, [], by simp, by simp⟩
    · simp only [processGradeTarget, hck, hfg]
      exact ⟨h, Or.inl ⟨by trivial, by trivial⟩, [], by simp, by simp⟩

theorem gradeTick_frame (env : GradeEnv) (ts : List (Nat × Nat)) (t : Nat × Nat) :
    ∀ st : GradeState, (∀ x ∈ ts, x ≠ t) →
    SMap.get (ts.foldl (processGradeTarget env) st).mem t = SMap.get st.mem t ∧
    SMap.get (ts.foldl (processGradeTarget env) st).disk t = SMap.get st.disk t ∧
    gradeEventsFor t (ts.foldl (processGradeTarget env) st).events =
      gradeEventsFor t st.events := by
  induction ts with
  | nil => exact fun st _ => ⟨rfl, rfl, rfl⟩
  | cons x rest ih =>
    intro st h
    have hx : x ≠ t := h x (List.mem_cons_self x rest)
    have hrest : ∀ y ∈ rest, y ≠ t := fun y hy => h y (List.mem_cons_of_mem x hy)
    obtain ⟨m2, d2, e2⟩ := processGradeTarget_frame env st t x hx
    obtain ⟨m1, d1, e1⟩ := ih (processGradeTarget env st x) hrest
    exact ⟨m1.trans m2, d1.trans d2, e1.trans e2⟩

theorem processGradeTarget_shift (env : GradeEnv) (st : GradeState) (x t : Nat × Nat)
    (hx : x ≠ t) :
    SMap.get (processGradeTarget env (processGradeTarget env st x) t).mem t =
      SMap.get (processGradeTarget env st t).mem t ∧
    SMap.get (processGradeTarget env (processGradeTarget env st x) t).disk t =
      SMap.get (processGradeTarget env st t).disk t ∧
    gradeEventsFor t (processGradeTarget env (processGradeTarget env st x) t).events =
      gradeEventsFor t (processGradeTarget env st t).events := by
  obtain ⟨fm, fd, fe⟩ := processGradeTarget_frame env st t x hx
  obtain ⟨lm, ld, le⟩ := processGradeTarget_local env (processGradeTarget env st x) st t fm
  refine ⟨lm, ?_, ?_⟩
  · rcases ld with ⟨d1, d2⟩ | deq
    · rw [d1, d2, fd]
    · exact deq
  · obtain ⟨E, he1, he2⟩ := le
    rw [he1, he2, fe]

/-- The events of `evs` emitted for inbox user `uid`. -/
def inboxEventsFor (uid : Nat) (evs : List ((Nat × Nat) × Post)) :
    List ((Nat × Nat) × Post) :=
  evs.filter (fun e => e.1.1 == uid)

theorem inboxEventsFor_append (uid : Nat) (l1 l2 : List ((Nat × Nat) × Post)) :
    inboxEventsFor uid (l1 ++ l2) = inboxEventsFor uid l1 ++ inboxEventsFor uid l2 := by
  unfold inboxEventsFor
  exact List.filter_append l1 l2

theorem inboxEventsFor_map_self (uid fid : Nat) (l : List Post) :
    inboxEventsFor uid (l.map (fun p => ((uid, fid), p))) =
      l.map (fun p => ((uid, fid), p)) := by
  unfold inboxEventsFor
  rw [List.filter_eq_self]
  intro e he
  obtain ⟨p, _, hp⟩ := List.mem_map.mp he
  simp [← hp]

theorem inboxEventsFor_map_ne (uid uid' fid : Nat) (h : uid' ≠ uid) (l : List Post) :
    inboxEventsFor uid (l.map (fun p => ((uid', fid), p))) = [] := by
  unfold inboxEventsFor
  rw [List.filter_eq_nil_iff]
  intro e he
  obtain ⟨p, _, hp⟩ := List.mem_map.mp he
  simp [← hp, h]

theorem processForum_frame (env : InboxEnv) (uid' ck : Nat) (st : InboxState)
    (f : Nat × Nat) (uid : Nat) (h : uid' ≠ uid) :
    (∀ fid, SMap.get (processForum env uid' ck st f).1.mem (uid, fid) =
      SMap.get st.mem (uid, fid)) ∧
    (∀ fid, SMap.get (processForum env uid' ck st f).1.disk (uid, fid) =
      SMap.get st.disk (uid, fid)) ∧
    inboxEventsFor uid (processForum env uid' ck st f).1.events =
      inboxEventsFor uid st.events := by
  have hkey : ∀ fid, ((uid, fid) : Nat × Nat) ≠ (uid', f.1) := by
    intro fid he
    exact h (congrArg Prod.fst he).symm
  by_cases hgate : (SMap.get st.mem (uid', f.1)).isSome &&
      (f.2 == 0 || f.2 == getUnreadMessagesCount st uid' f.1)
  · simp only [processForum, hgate]
    exact ⟨fun _ => by trivial, fun _ => by trivial, by trivial⟩
  · simp only [processForum]
    rw [if_neg hgate]
    rcases hfp : env.fetchPosts ck f.1 with posts | _ | _
    · rcases hold : SMap.get st.mem (uid', f.1) with _ | old_list
      · simp only [hfp, hold]
        exact ⟨fun fid => by simp [SMap.get_set_ne _ _ _ _ (hkey fid)],
          fun fid => by simp [SMap.get_set_ne _ _ _ _ (hkey fid)], by trivial⟩
      · by_cases hlen : posts.length = old_list.length
        · simp only [hfp, hold]
          rw [if_pos hlen]
          exact ⟨fun fid => by simp [SMap.get_set_ne _ _ _ _ (hkey fid)],
            fun _ => by trivial, by trivial⟩
        · simp only [hfp, hold]
          rw [if_neg hlen]
          refine ⟨fun fid => by simp [SMap.get_set_ne _ _ _ _ (hkey fid)],
            fun fid => by simp [SMap.get_set_ne _ _ _ _ (hkey fid)], ?_⟩
          rw [inboxEventsFor_append, inboxEventsFor_map_ne uid uid' f.1 h,
            List.append_nil]
    · simp only [hfp]
      exact ⟨fun _ => by trivial, fun _ => by trivial, by trivial⟩
    · simp only [hfp]
      exact ⟨fun _ => by trivial, fun _ => by trivial, by trivial⟩

theorem get_set_pair_congr {α : Type} (m m' : SMap (Nat × Nat) α) (uid a : Nat) (v : α)
    (h : ∀ fid, SMap.get m (uid, fid) = SMap.get m' (uid, fid)) :
    ∀ fid, SMap.get (SMap.set m (uid, a) v) (uid, fid) =
      SMap.get (SMap.set m' (uid, a) v) (uid, fid) := by
  intro fid
  by_cases hf : fid = a
  · subst hf
    rw [SMap.get_set_self, SMap.get_set_self]
  · rw [SMap.get_set_ne _ _ _ _ (by simp [hf]), SMap.get_set_ne _ _ _ _ (by simp [hf]),
      h fid]

theorem processForum_local (env : InboxEnv) (uid ck : Nat) (f : Nat × Nat)
    (st st' : InboxState)
    (hm : ∀ fid, SMap.get st.mem (uid, fid) = SMap.get st'.mem (uid, fid))
    (hd : ∀ fid, SMap.get st.disk (uid, fid) = SMap.get st'.disk (uid, fid)) :
    (processForum env uid ck st f).2 = (processForum env uid ck st' f).2 ∧
    (∀ fid, SMap.get (processForum env uid ck st f).1.mem (uid, fid) =
      SMap.get (processForum env uid ck st' f).1.mem (uid, fid)) ∧
    (∀ fid, SMap.get (processForum env uid ck st f).1.disk (uid, fid) =
      SMap.get (processForum env uid ck st' f).1.disk (uid, fid)) ∧
    ∃ E, inboxEventsFor uid (processForum env uid ck st f).1.events =
        inboxEventsFor uid st.events ++ E ∧
      inboxEventsFor uid (processForum env uid ck st' f).1.events =
        inboxEventsFor uid st'.events ++ E := by
  have hcnt : getUnreadMessagesCount st uid f.1 = getUnreadMessagesCount st' uid f.1 := by
    unfold getUnreadMessagesCount
    rw [hm f.1]
  by_cases hgate : (SMap.get st.mem (uid, f.1)).isSome &&
      (f.2 == 0 || f.2 == getUnreadMessagesCount st uid f.1)
  · have hgate' : (SMap.get st'.mem (uid, f.1)).isSome &&
        (f.2 == 0 || f.2 == getUnreadMessagesCount st' uid f.1) := by
      rw [← hm f.1, ← hcnt]
      exact hgate
    simp only [processForum, hgate, hgate']
    exact ⟨by trivial, hm, hd, [], by simp, by simp⟩
  · have hgate' : ¬ ((SMap.get st'.mem (uid, f.1)).isSome &&
        (f.2 == 0 || f.2 == getUnreadMessagesCount st' uid f.1)) := by
      rw [← hm f.1, ← hcnt]
      exact hgate
    simp only [processForum]
    rw [if_neg hgate, if_neg hgate']
    rcases hfp : env.fetchPosts ck f.1 with posts | _ | _
    · rcases hold : SMap.get st.mem (uid, f.1) with _ | old_list
      · have hold' : SMap.get st'.mem (uid, f.1) = none := (hm f.1).symm.trans hold
        simp only [hfp, hold, hold']
        exact ⟨by trivial, get_set_pair_congr _ _ uid f.1 posts hm,
          get_set_pair_congr _ _ uid f.1 posts hd, [], by simp, by simp⟩
      · have hold' : SMap.get st'.mem (uid, f.1) = some old_list := (hm f.1).symm.trans hold
        simp only [hfp, hold, hold']
        by_cases hlen : posts.length = old_list.length
        · rw [if_pos hlen, if_pos hlen]
          exact ⟨by trivial, get_set_pair_congr _ _ uid f.1 posts hm, hd, [],
            by simp, by simp⟩
        · rw [if_neg hlen, if_neg hlen]
          refine ⟨by trivial, get_set_pair_congr _ _ uid f.1 posts hm,
            get_set_pair_congr _ _ uid f.1 posts hd,
            ((locateDifferenceInArrays Post.id posts old_list).filter
              (fun p => !p.isRead)).map (fun p => ((uid, f.1), p)), ?_, ?_⟩
          · rw [inboxEventsFor_append, inboxEventsFor_map_self]
          · rw [inboxEventsFor_append, inboxEventsFor_map_self]
    · simp only [hfp]
      exact ⟨by trivial, hm, hd, [], by simp, by simp⟩
    · simp only [hfp]
      exact ⟨by trivial, hm, hd, [], by simp, by simp⟩

theorem processForumsLoop_frame (env : InboxEnv) (uid' ck uid : Nat) (h : uid' ≠ uid)
    (fs : List (Nat × Nat)) :
    ∀ st : InboxState,
    (∀ fid, SMap.get (processForumsLoop env uid' ck st fs).1.mem (uid, fid) =
      SMap.get st.mem (uid, fid)) ∧
    (∀ fid, SMap.get (processForumsLoop env uid' ck st fs).1.disk (uid, fid) =
      SMap.get st.disk (uid, fid)) ∧
    inboxEventsFor uid (processForumsLoop env uid' ck st fs).1.events =
      inboxEventsFor uid st.events := by
  induction fs with
  | nil => exact fun st => ⟨fun _ => rfl, fun _ => rfl, rfl⟩
  | cons f rest ih =>
    intro st
    obtain ⟨fm, fd, fe⟩ := processForum_frame env uid' ck st f uid h
    rcases hpf : processForum env uid' ck st f with ⟨st1, oe⟩
    rw [hpf] at fm fd fe
    cases oe with
    | none =>
      simp only [processForumsLoop, hpf]
      obtain ⟨m1, d1, e1⟩ := ih st1
      exact ⟨fun fid => (m1 fid).trans (fm fid), fun fid => (d1 fid).trans (fd fid),
        e1.trans fe⟩
    | some e =>
      simp only [processForumsLoop, hpf]
      exact ⟨fm, fd, fe⟩

theorem processForumsLoop_local (env : InboxEnv) (uid ck : Nat) (fs : List (Nat × Nat)) :
    ∀ st st' : InboxState,
    (∀ fid, SMap.get st.mem (uid, fid) = SMap.get st'.mem (uid, fid)) →
    (∀ fid, SMap.get st.disk (uid, fid) = SMap.get st'.disk (uid, fid)) →
    (processForumsLoop env uid ck st fs).2 = (processForumsLoop env uid ck st' fs).2 ∧
    (∀ fid, SMap.get (processForumsLoop env uid ck st fs).1.mem (uid, fid) =
      SMap.get (processForumsLoop env uid ck st' fs).1.mem (uid, fid)) ∧
    (∀ fid, SMap.get (processForumsLoop env uid ck st fs).1.disk (uid, fid) =
      SMap.get (processForumsLoop env uid ck st' fs).1.disk (uid, fid)) ∧
    ∃ E, inboxEventsFor uid (processForumsLoop env uid ck st fs).1.events =
        inboxEventsFor uid st.events ++ E ∧
      inboxEventsFor uid (processForumsLoop env uid ck st' fs).1.events =
        inboxEventsFor uid st'.events ++ E := by
  induction fs with
  | nil =>
    intro st st' hm hd
    exact ⟨rfl, hm, hd, [], by simp [processForumsLoop], by simp [processForumsLoop]⟩
  | cons f rest ih =>
    intro st st' hm hd
    obtain ⟨he, lm, ldk, E1, le1, le2⟩ := processForum_local env uid ck f st st' hm hd
    rcases hpf : processForum env uid ck st f with ⟨st1, oe⟩
    rcases hpf' : processForum env uid ck st' f with ⟨st1', oe'⟩
    rw [hpf, hpf'] at he lm ldk
    rw [hpf] at le1
    rw [hpf'] at le2
    cases oe with
    | none =>
      have hoe' : oe' = none := he.symm
      subst hoe'
      simp only [processForumsLoop, hpf, hpf']
      obtain ⟨ihe, ihm, ihd, E2, ie1, ie2⟩ := ih st1 st1' lm ldk
      refine ⟨ihe, ihm, ihd, E1 ++ E2, ?_, ?_⟩
      · rw [ie1, le1, List.append_assoc]
      · rw [ie2, le2, List.append_assoc]
    | some e =>
      have hoe' : oe' = some e := he.symm
      subst hoe'
      simp only [processForumsLoop, hpf, hpf']
      exact ⟨by trivial, lm, ldk, E1, le1, le2⟩

theorem processInboxUser_frame (env : InboxEnv) (st : InboxState) (uid' uid : Nat)
    (h : uid' ≠ uid) :
    (∀ fid, SMap.get (processInboxUser env st uid').mem (uid, fid) =
      SMap.get st.mem (uid, fid)) ∧
    (∀ fid, SMap.get (processInboxUser env st uid').disk (uid, fid) =
      SMap.get st.disk (uid, fid)) ∧
    inboxEventsFor uid (processInboxUser env st uid').events =
      inboxEventsFor uid st.events := by
  rcases hck : env.cookie uid' with _ | ck
  · simp only [processInboxUser, hck]
    exact ⟨fun _ => by trivial, fun _ => by trivial, by trivial⟩
  · rcases hfi : env.fetchInbox ck with forums | _ | _
    · simp only [processInboxUser, hck, hfi]
      obtain ⟨m, d, e⟩ := processForumsLoop_frame env uid' ck uid h forums st
      rcases hr2 : (processForumsLoop env uid' ck st forums).2 with _ | ek
      · simp only [hr2]
        exact ⟨m, d, e⟩
      · cases ek <;> simp only [hr2] <;> exact ⟨m, d, e⟩
    · simp only [processInboxUser, hck, hfi]
      exact ⟨fun _ => by trivial, fun _ => by trivial, by trivial⟩
    · simp only [processInboxUser, hck, hfi]
      exact ⟨fun _ => by trivial, fun _ => by trivial, by trivial⟩

theorem processInboxUser_local (env : InboxEnv) (uid : Nat) (st st' : InboxState)
    (hm : ∀ fid, SMap.get st.mem (uid, fid) = SMap.get st'.mem (uid, fid))
    (hd : ∀ fid, SMap.get st.disk (uid, fid) = SMap.get st'.disk (uid, fid)) :
    (∀ fid, SMap.get (processInboxUser env st uid).mem (uid, fid) =
      SMap.get (processInboxUser env st' uid).mem (uid, fid)) ∧
    (∀ fid, SMap.get (processInboxUser env st uid).disk (uid, fid) =
      SMap.get (processInboxUser env st' uid).disk (uid, fid)) ∧
    ∃ E, inboxEventsFor uid (processInboxUser env st uid).events =
        inboxEventsFor uid st.events ++ E ∧
      inboxEventsFor uid (processInboxUser env st' uid).events =
        inboxEventsFor uid st'.events ++ E := by
  rcases hck : env.cookie uid with _ | ck
  · simp only [processInboxUser, hck]
    exact ⟨hm, hd, [], by simp, by simp⟩
  · rcases hfi : env.fetchInbox ck with forums | _ | _
    · simp only [processInboxUser, hck, hfi]
      obtain ⟨he, lm, ldk, E, le1, le2⟩ := processForumsLoop_local env uid ck forums st st' hm hd
      rcases hr2 : (processForumsLoop env uid ck st forums).2 with _ | ek
      · have hr2' : (processForumsLoop env uid ck st' forums).2 = none := he.symm.trans hr2
        simp only [hr2, hr2']
        exact ⟨lm, ldk, E, le1, le2⟩
      · have hr2' : (processForumsLoop env uid ck st' forums).2 = some ek := he.symm.trans hr2
        cases ek <;> simp only [hr2, hr2'] <;> exact ⟨lm, ldk, E, le1, le2⟩
    · simp only [processInboxUser, hck, hfi]
      exact ⟨hm, hd, [], by simp, by simp⟩
    · simp only [processInboxUser, hck, hfi]
      exact ⟨hm, hd, [], by simp, by simp⟩

theorem inboxTick_frame (env : InboxEnv) (us : List Nat) (uid : Nat) :
    ∀ st : InboxState, (∀ u ∈ us, u ≠ uid) →
    (∀ fid, SMap.get (watchForInboxMessages env us st).mem (uid, fid) =
      SMap.get st.mem (uid, fid)) ∧
    (∀ fid, SMap.get (watchForInboxMessages env us st).disk (uid, fid) =
      SMap.get st.disk (uid, fid)) ∧
    inboxEventsFor uid (watchForInboxMessages env us st).events =
      inboxEventsFor uid st.events := by
  induction us with
  | nil => exact fun st _ => ⟨fun _ => rfl, fun _ => rfl, rfl⟩
  | cons u rest ih =>
    intro st h
    have hu : u ≠ uid := h u (List.mem_cons_self u rest)
    have hrest : ∀ x ∈ rest, x ≠ uid := fun x hx => h x (List.mem_cons_of_mem u hx)
    obtain ⟨m2, d2, e2⟩ := processInboxUser_frame env st u uid hu
    obtain ⟨m1, d1, e1⟩ := ih (processInboxUser env st u) hrest
    exact ⟨fun fid => (m1 fid).trans (m2 fid), fun fid => (d1 fid).trans (d2 fid),
      e1.trans e2⟩

theorem processInboxUser_shift (env : InboxEnv) (st : InboxState) (u uid : Nat)
    (hu : u ≠ uid) :
    (∀ fid, SMap.get (processInboxUser env (processInboxUser env st u) uid).mem (uid, fid) =
      SMap.get (processInboxUser env st uid).mem (uid, fid)) ∧
    (∀ fid, SMap.get (processInboxUser env (processInboxUser env st u) uid).disk (uid, fid) =
      SMap.get (processInboxUser env st uid).disk (uid, fid)) ∧
    inboxEventsFor uid (processInboxUser env (processInboxUser env st u) uid).events =
      inboxEventsFor uid (processInboxUser env st uid).events := by
  obtain ⟨fm, fd, fe⟩ := processInboxUser_frame env st u uid hu
  obtain ⟨lm, ld, E, le1, le2⟩ :=
    processInboxUser_local env uid (processInboxUser env st u) st fm fd
  refine ⟨lm, ld, ?_⟩
  rw [le1, le2, fe]

theorem annTick_main (env : AnnEnv) (cs : List Nat) :
    ∀ (st : AnnState) (cid : Nat), cs.Nodup → cid ∈ cs →
    annGet (watchForAnnouncements env cs st).mem cid =
      annGet (processAnnCourse env st cid).mem cid ∧
    annGet (watchForAnnouncements env cs st).disk cid =
      annGet (processAnnCourse env st cid).disk cid ∧
    annEventsFor cid (watchForAnnouncements env cs st).events =
      annEventsFor cid (processAnnCourse env st cid).events := by
  induction cs with
  | nil =>
    intro st cid _ hmem
    cases hmem
  | cons c rest ih =>
    intro st cid hnd hmem
    rw [List.nodup_cons] at hnd
    rcases List.mem_cons.mp hmem with heq | hmem2
    · subst heq
      have hrest : ∀ x ∈ rest, x ≠ cid := fun x hx he => hnd.1 (he ▸ hx)
      exact watchForAnnouncements_frame env rest cid (processAnnCourse env st cid) hrest
    · have hc : c ≠ cid := fun he => hnd.1 (he ▸ hmem2)
      obtain ⟨im, idk, ie⟩ := ih (processAnnCourse env st c) cid hnd.2 hmem2
      obtain ⟨sm, sd, se⟩ := processAnnCourse_shift env st c cid hc
      exact ⟨im.trans sm, idk.trans sd, ie.trans se⟩

theorem gradeFold_main (env : GradeEnv) (ts : List (Nat × Nat)) :
    ∀ (st : GradeState) (t : Nat × Nat), ts.Nodup → t ∈ ts →
    SMap.get (ts.foldl (processGradeTarget env) st).mem t =
      SMap.get (processGradeTarget env st t).mem t ∧
    SMap.get (ts.foldl (processGradeTarget env) st).disk t =
      SMap.get (processGradeTarget env st t).disk t ∧
    gradeEventsFor t (ts.foldl (processGradeTarget env) st).events =
      gradeEventsFor t (processGradeTarget env st t).events := by
  induction ts with
  | nil =>
    intro st t _ hmem
    cases hmem
  | cons x rest ih =>
    intro st t hnd hmem
    rw [List.nodup_cons] at hnd
    rcases List.mem_cons.mp hmem with heq | hmem2
    · subst heq
      have hrest : ∀ y ∈ rest, y ≠ t := fun y hy he => hnd.1 (he ▸ hy)
      exact gradeTick_frame env rest t (processGradeTarget env st t) hrest
    · have hx : x ≠ t := fun he => hnd.1 (he ▸ hmem2)
      obtain ⟨im, idk, ie⟩ := ih (processGradeTarget env st x) t hnd.2 hmem2
      obtain ⟨sm, sd, se⟩ := processGradeTarget_shift env st x t hx
      exact ⟨im.trans sm, idk.trans sd, ie.trans se⟩

theorem inboxTick_main (env : InboxEnv) (us : List Nat) :
    ∀ (st : InboxState) (uid : Nat), us.Nodup → uid ∈ us →
    (∀ fid, SMap.get (watchForInboxMessages env us st).mem (uid, fid) =
      SMap.get (processInboxUser env st uid).mem (uid, fid)) ∧
    (∀ fid, SMap.get (watchForInboxMessages env us st).disk (uid, fid) =
      SMap.get (processInboxUser env st uid).disk (uid, fid)) ∧
    inboxEventsFor uid (watchForInboxMessages env us st).events =
      inboxEventsFor uid (processInboxUser env st uid).events := by
  induction us with
  | nil =>
    intro st uid _ hmem
    cases hmem
  | cons u rest ih =>
    intro st uid hnd hmem
    rw [List.nodup_cons] at hnd
    rcases List.mem_cons.mp hmem with heq | hmem2
    · subst heq
      have hrest : ∀ x ∈ rest, x ≠ uid := fun x hx he => hnd.1 (he ▸ hx)
      exact inboxTick_frame env rest uid (processInboxUser env st uid) hrest
    · have hu : u ≠ uid := fun he => hnd.1 (he ▸ hmem2)
      obtain ⟨im, idk, ie⟩ := ih (processInboxUser env st u) uid hnd.2 hmem2
      obtain ⟨sm, sd, se⟩ := processInboxUser_shift env st u uid hu
      exact ⟨fun fid => (im fid).trans (sm fid), fun fid => (idk fid).trans (sd fid),
        ie.trans se⟩

/-- C3 (amended): within one tick a failure in one target's processing
never affects other courses (announcements) or other course-user pairs
(grades): with pairwise-distinct keys, each such target's final snapshot,
persisted form and emitted events in the tick equal those of processing
that target alone from the tick-start state.  For inbox messages the
isolation boundary is one user, not one (user, forum) pair: each user's
outcome equals standalone processing of that user, but inside a user a
failing forum aborts that user's remaining forums (see the
counterexample). -/
theorem C3_target_isolation_amended :
    (∀ (env : AnnEnv) (cs : List Nat) (st : AnnState) (cid : Nat),
      cs.Nodup → cid ∈ cs →
      annGet (watchForAnnouncements env cs st).mem cid =
        annGet (processAnnCourse env st cid).mem cid ∧
      annGet (watchForAnnouncements env cs st).disk cid =
        annGet (processAnnCourse env st cid).disk cid ∧
      annEventsFor cid (watchForAnnouncements env cs st).events =
        annEventsFor cid (processAnnCourse env st cid).events) ∧
    (∀ (env : GradeEnv) (courses : List Nat) (st : GradeState) (t : Nat × Nat),
      (courses.flatMap (fun c => (env.activeUsers c).map (fun u => (c, u)))).Nodup →
      t ∈ courses.flatMap (fun c => (env.activeUsers c).map (fun u => (c, u))) →
      SMap.get (watchForGrades env courses st).mem t =
        SMap.get (processGradeTarget env st t).mem t ∧
      SMap.get (watchForGrades env courses st).disk t =
        SMap.get (processGradeTarget env st t).disk t ∧
      gradeEventsFor t (watchForGrades env courses st).events =
        gradeEventsFor t (processGradeTarget env st t).events) ∧
    (∀ (env : InboxEnv) (us : List Nat) (st : InboxState) (uid : Nat),
      us.Nodup → uid ∈ us →
      (∀ fid, SMap.get (watchForInboxMessages env us st).mem (uid, fid) =
        SMap.get (processInboxUser env st uid).mem (uid, fid)) ∧
      (∀ fid, SMap.get (watchForInboxMessages env us st).disk (uid, fid) =
        SMap.get (processInboxUser env st uid).disk (uid, fid)) ∧
      inboxEventsFor uid (watchForInboxMessages env us st).events =
        inboxEventsFor uid (processInboxUser env st uid).events) :=
  ⟨fun env cs st cid => annTick_main env cs st cid,
    fun env courses st t h1 h2 => gradeFold_main env
      (courses.flatMap (fun c => (env.activeUsers c).map (fun u => (c, u)))) st t h1 h2,
    fun env us st uid => inboxTick_main env us st uid⟩

/-- Concrete announcements environment for the C3 witness: two courses,
course 1 failing its fetch, course 2 succeeding with a new announcement. -/
def envW3a : AnnEnv :=
  { activeUsers := fun _ => [10]
    cookie := fun _ => some 7
    fetchAnn := fun c _ => if c = 1 then .errOther else .ok [Ann.mk 5 (some 40) none 0]
    now := 50 }

/-- Concrete announcements state for the C3 witness. -/
def stW3a : AnnState :=
  { mem := [(1, some []), (2, some [])]
    disk := [(1, some []), (2, some [])]
    events := []
    reports := [] }

/-- Concrete grades environment for the C3 witness: one course with two
users, user 10 failing the fetch, user 11 succeeding. -/
def envW3g : GradeEnv :=
  { activeUsers := fun _ => [10, 11]
    cookie := fun _ => some 7
    fetchGrades := fun _ _ => .ok [Grade.mk 1 "PUBLISHED" none 100]
    enrich := fun _ _ => .ok 42 }

/-- Concrete grades state for the C3 witness. -/
def stW3g : GradeState :=
  { mem := [], disk := [], events := [], reports := [] }

/-- Concrete inbox environment for the C3 witness: two users; user 10's
post fetch fails, user 11's succeeds. -/
def envW3i : InboxEnv :=
  { cookie := fun _ => some 7
    fetchInbox := fun _ => .ok [(1, 5)]
    fetchPosts := fun _ _ => .ok [Post.mk 9 false 0] }

/-- Concrete inbox state for the C3 witness. -/
def stW3i : InboxState :=
  { mem := [], disk := [], events := [], reports := [], postFetches := [] }

/-- Witness for C3 (amended) at concrete inputs, one per watcher. -/
theorem C3_target_isolation_amended_witness :
    (List.Nodup [1, 2] ∧ 2 ∈ [1, 2] ∧
      (annGet (watchForAnnouncements envW3a [1, 2] stW3a).mem 2 =
        annGet (processAnnCourse envW3a stW3a 2).mem 2 ∧
      annGet (watchForAnnouncements envW3a [1, 2] stW3a).disk 2 =
        annGet (processAnnCourse envW3a stW3a 2).disk 2 ∧
      annEventsFor 2 (watchForAnnouncements envW3a [1, 2] stW3a).events =
        annEventsFor 2 (processAnnCourse envW3a stW3a 2).events)) ∧
    (([1].flatMap (fun c => (envW3g.activeUsers c).map (fun u => (c, u)))).Nodup ∧
      (1, 11) ∈ [1].flatMap (fun c => (envW3g.activeUsers c).map (fun u => (c, u))) ∧
      (SMap.get (watchForGrades envW3g [1] stW3g).mem (1, 11) =
        SMap.get (processGradeTarget envW3g stW3g (1, 11)).mem (1, 11) ∧
      SMap.get (watchForGrades envW3g [1] stW3g).disk (1, 11) =
        SMap.get (processGradeTarget envW3g stW3g (1, 11)).disk (1, 11) ∧
      gradeEventsFor (1, 11) (watchForGrades envW3g [1] stW3g).events =
        gradeEventsFor (1, 11) (processGradeTarget envW3g stW3g (1, 11)).events)) ∧
    (List.Nodup [10, 11] ∧ 11 ∈ [10, 11] ∧
      ((∀ fid, SMap.get (watchForInboxMessages envW3i [10, 11] stW3i).mem (11, fid) =
        SMap.get (processInboxUser envW3i stW3i 11).mem (11, fid)) ∧
      (∀ fid, SMap.get (watchForInboxMessages envW3i [10, 11] stW3i).disk (11, fid) =
        SMap.get (processInboxUser envW3i stW3i 11).disk (11, fid)) ∧
      inboxEventsFor 11 (watchForInboxMessages envW3i [10, 11] stW3i).events =
        inboxEventsFor 11 (processInboxUser envW3i stW3i 11).events)) :=
  ⟨⟨by decide, by decide,
      C3_target_isolation_amended.1 envW3a [1, 2] stW3a 2 (by decide) (by decide)⟩,
    ⟨by decide, by decide,
      C3_target_isolation_amended.2.1 envW3g [1] stW3g (1, 11) (by decide) (by decide)⟩,
    ⟨by decide, by decide,
      C3_target_isolation_amended.2.2 envW3i [10, 11] stW3i 11 (by decide) (by decide)⟩⟩
